import Mathlib

/-!
Verification of the series-data transformation pipeline of
`src/client/app/visualizations/chart/plotly/updateData.js`.

The JavaScript code is shallowly embedded: JS numbers carried by the data
are modelled as rationals, with an explicit `nonfinite` value standing for
`NaN` / `Infinity` (the only source of non-finite values in this pipeline is
the unguarded division in `updatePercentValues`), and the cells of the
rebuilt `y` arrays additionally distinguish JS `null` and `undefined`.
`Map`/`Set` objects (which walk entries in insertion order) are modelled by
association lists / duplicate-free lists, and the functions that the file
imports from elsewhere in the repository (`createNumberFormatter`,
`formatSimpleTemplate`, `normalizeValue`) are treated as parameters,
collected in an `Env` structure.
-/

set_option linter.unusedSectionVars false

namespace UpdateData

/-- A JS number: a finite value (modelled as a rational) or a non-finite
value (`NaN` and `±Infinity`, collapsed into one constructor). -/
inductive JsNum where
  | num (q : ℚ)
  | nonfinite
deriving DecidableEq

/-- A cell of a series' `y` output array: JS `null`, JS `undefined`, a
finite number, or a non-finite number. -/
inductive YVal where
  | null
  | undef
  | num (q : ℚ)
  | nonfinite
deriving DecidableEq

/-- Numeric coercion used by JS `+`: `null` coerces to `0`; `undefined`,
`NaN` and `±Infinity` have no finite value. -/
def YVal.toFinite? : YVal → Option ℚ
  | .null => some 0
  | .num q => some q
  | _ => none

/-- JS `+` on `y` cells: any `undefined`/`NaN`/`Infinity` operand makes the
result non-finite; otherwise both sides coerce to numbers and add. -/
def jsAdd (a b : YVal) : YVal :=
  match a.toFinite?, b.toFinite? with
  | some x, some y => .num (x + y)
  | _, _ => .nonfinite

/-- JS `+` on plain numbers (used to sum `yPercent` values). -/
def jsNumAdd : JsNum → JsNum → JsNum
  | .num a, .num b => .num (a + b)
  | _, _ => .nonfinite

/-- `Math.abs` applied to a possibly-absent `yPercent` field:
`Math.abs(undefined)` is `NaN`. -/
def jsAbsOpt : Option JsNum → JsNum
  | none => .nonfinite
  | some (.num q) => .num |q|
  | some .nonfinite => .nonfinite

/-- JS unary minus on a number. -/
def jsNeg : JsNum → JsNum
  | .num q => .num (-q)
  | .nonfinite => .nonfinite

/-- View a `JsNum` as a `y`-array cell. -/
def YVal.ofJsNum : JsNum → YVal
  | .num q => .num q
  | .nonfinite => .nonfinite

/-- View a possibly-absent `JsNum` (a `yPercent` field, say) as a `y`-array
cell; an absent field is JS `undefined`. -/
def YVal.ofOptJsNum : Option JsNum → YVal
  | none => .undef
  | some j => .ofJsNum j

/-- A JS string value that may also be `undefined` (the default text
formatter returns `undefined` when the token bag has no `@@y` entry). -/
inductive JsStr where
  | undef
  | str (s : String)
deriving DecidableEq

/-- String coercion as performed by JS template literals / `+`. -/
def JsStr.asString : JsStr → String
  | .undef => "undefined"
  | .str s => s

/-- String coercion of a possibly-absent token-bag entry. -/
def optAsString : Option String → String
  | none => "undefined"
  | some s => s

/-- One `(x, y)` observation of a series (`series.sourceData` entry).
`rowX` / `rowY` are the raw `item.row.x` / `item.row.y` cells and
`rawFields` is the `item.row.$raw` sub-map of unprocessed fields. -/
structure Point (α : Type) where
  x : α
  y : ℚ
  yError : Option ℚ
  size : Option ℚ
  yPercent : Option JsNum
  rowX : α
  rowY : α
  rawFields : List (String × String)
deriving DecidableEq

/-- One chart trace. `sourceData` models the insertion-ordered JS `Map`
from x-value to point (the key of a point is its `x` field); `errorY`
models `series.error_y.array`. -/
structure Series (α : Type) where
  name : String
  visible : Bool
  yaxis : String
  sourceData : List (Point α)
  labels : List α
  x : List α
  y : List YVal
  errorY : List (Option ℚ)
  text : List JsStr
  hover : List JsStr
deriving DecidableEq

/-- The chart configuration fields read by `updateData.js`.
`percentValues` and `stacking` are `options.series.percentValues` and
`options.series.stacking`; `xAxisType` / `yAxisType` / `y2AxisType` are
`options.xAxis.type`, `options.yAxis[0].type`, `options.yAxis[1].type`
(with `none` for an absent axis type). -/
structure Options where
  globalSeriesType : String
  seriesOptions : List (String × String)
  percentValues : Bool
  stacking : Bool
  sortX : Bool
  xAxisType : Option String
  yAxisType : Option String
  y2AxisType : Option String
  textFormat : String
deriving DecidableEq

/-- The functions `updateData.js` imports from elsewhere in the repository,
kept abstract: `formatNumber` / `formatPercent` are the formatters built by
`createNumberFormatter(options.numberFormat)` and
`createNumberFormatter(options.percentFormat)`; `normalizeValue` is the
axis-value normalizer from `./utils` (with `options.dateTimeFormat` baked
in); `formatSimpleTemplate` is the template expander from
`@/lib/value-format`. -/
structure Env (α : Type) where
  formatNumber : ℚ → String
  formatPercent : JsNum → String
  normalizeValue : α → Option String → String
  formatSimpleTemplate : String → List (String × String) → String

instance {α : Type} [Inhabited α] : Inhabited (Point α) :=
  ⟨⟨default, 0, none, none, none, default, default, []⟩⟩

instance {α : Type} : Inhabited (Series α) :=
  ⟨⟨"", false, "", [], [], [], [], [], [], []⟩⟩

variable {α : Type} [LinearOrder α]

/-! ### Association-list model of JS `Map` objects (insertion-ordered) -/

/-- Lookup in an insertion-ordered key/value list (JS `Map.get`). -/
def mapGet {β : Type} (m : List (α × β)) (k : α) : Option β :=
  (m.find? (fun kv => decide (kv.1 = k))).map (fun kv => kv.2)

/-- Update/insert in an insertion-ordered key/value list (JS `Map.set`):
an existing key keeps its position, a new key is appended. -/
def mapSet {β : Type} (m : List (α × β)) (k : α) (v : β) : List (α × β) :=
  match m with
  | [] => [(k, v)]
  | kv :: rest => if kv.1 = k then (k, v) :: rest else kv :: mapSet rest k v

/-- `Map.get` with a JS `|| 0` style default. -/
def mapGetD {β : Type} (m : List (α × β)) (k : α) (d : β) : β :=
  (mapGet m k).getD d

/-- Lookup of a point by x-value in a series' `sourceData`
(JS `series.sourceData.get(x)`). -/
def srcGet (sd : List (Point α)) (k : α) : Option (Point α) :=
  sd.find? (fun p => decide (p.x = k))

/-! ### Token bags (JS plain objects, insertion-ordered) -/

/-- Set a key in a token bag (JS property assignment / `extend`): an
existing key keeps its position, a new key is appended. -/
def bagSet (b : List (String × String)) (k v : String) : List (String × String) :=
  match b with
  | [] => [(k, v)]
  | kv :: rest => if kv.1 = k then (k, v) :: rest else kv :: bagSet rest k v

/-- Read a key from a token bag (`item['@@y']` and the like). -/
def bagGet (b : List (String × String)) (k : String) : Option String :=
  (b.find? (fun kv => decide (kv.1 = k))).map (fun kv => kv.2)

/-! ### The embedded source functions, in source order -/

/-- `defaultFormatSeriesText` (updateData.js lines 5-17): the built-in text
for non-pie charts, `"y"`, with `" ± yError"`, a `"yPercent (...)"` wrap
and `": size"` applied in that order when the tokens are present. -/
def defaultFormatSeriesText (item : List (String × String)) : JsStr :=
  let r0 : JsStr := match bagGet item "@@y" with
    | none => .undef
    | some s => .str s
  let r1 : JsStr := match bagGet item "@@yError" with
    | none => r0
    | some e => .str (r0.asString ++ " ± " ++ e)
  let r2 : JsStr := match bagGet item "@@yPercent" with
    | none => r1
    | some p => .str (p ++ " (" ++ r1.asString ++ ")")
  match bagGet item "@@size" with
  | none => r2
  | some z => .str (r2.asString ++ ": " ++ z)

/-- `defaultFormatSeriesTextForPie` (lines 19-21): `"yPercent (y)"`. -/
def defaultFormatSeriesTextForPie (item : List (String × String)) : JsStr :=
  .str (optAsString (bagGet item "@@yPercent") ++ " (" ++
        optAsString (bagGet item "@@y") ++ ")")

/-- `createTextFormatter` (lines 23-28), applied to one token bag: an empty
`textFormat` selects the built-in formatter (the pie one iff the global
series type is `pie`); otherwise `formatSimpleTemplate` runs on the
user template. -/
def formatTextItem (env : Env α) (options : Options) (item : List (String × String)) : JsStr :=
  if options.textFormat = "" then
    if options.globalSeriesType = "pie" then defaultFormatSeriesTextForPie item
    else defaultFormatSeriesText item
  else .str (env.formatSimpleTemplate options.textFormat item)

/-- `formatValue` (lines 30-39): pick the axis type for `'x'`/`'y'`/`'y2'`
(`null` for any other tag) and run `normalizeValue`. -/
def formatValue (env : Env α) (options : Options) (value : α) (axis : String) : String :=
  let axisType : Option String :=
    if axis = "x" then options.xAxisType
    else if axis = "y" then options.yAxisType
    else if axis = "y2" then options.y2AxisType
    else none
  env.normalizeValue value axisType

/-- The token bag built for one x-value of one series (lines 53-74):
`@@name` always; when the series has a point at that x also `@@x`, `@@y`
(via `formatValue` on the raw row value for bubble/scatter series, via the
number formatter otherwise), `@@yError` / `@@size` when present,
`@@yPercent` when percent mode is on or the chart is a pie, and finally
the raw row fields merged in by `extend`. -/
def buildBag (env : Env α) (options : Options) (name yaxis : String)
    (sourceData : List (Point α)) (x : α) : List (String × String) :=
  let seriesType : String := mapGetD options.seriesOptions name options.globalSeriesType
  let b0 : List (String × String) := [("@@name", name)]
  match srcGet sourceData x with
  | none => b0
  | some item =>
    let b1 := bagSet b0 "@@x" (formatValue env options item.rowX "x")
    let b2 := bagSet b1 "@@y"
      (if seriesType = "bubble" ∨ seriesType = "scatter" then
        formatValue env options item.rowY yaxis
       else env.formatNumber item.y)
    let b3 := match item.yError with
      | none => b2
      | some e => bagSet b2 "@@yError" (env.formatNumber e)
    let b4 := match item.size with
      | none => b3
      | some z => bagSet b3 "@@size" (env.formatNumber z)
    let b5 :=
      if options.percentValues = true ∨ options.globalSeriesType = "pie" then
        bagSet b4 "@@yPercent" (env.formatPercent (jsAbsOpt item.yPercent))
      else b4
    item.rawFields.foldl (fun b kv => bagSet b kv.1 kv.2) b5

/-- The per-series body of `updateSeriesText` (lines 46-78): reset `text`
and `hover` to fresh arrays, walk `labels` (pie) or `x` (all other chart
families) and push one formatted text per x-value; nothing is ever pushed
to `hover`. -/
def updateSeriesTextS (env : Env α) (options : Options) (s : Series α) : Series α :=
  { s with
    hover := [],
    text := (if options.globalSeriesType = "pie" then s.labels else s.x).map
      (fun x => formatTextItem env options (buildBag env options s.name s.yaxis s.sourceData x)) }

/-- `updateSeriesText` (lines 41-79). -/
def updateSeriesText (env : Env α) (options : Options) (seriesList : List (Series α)) : List (Series α) :=
  seriesList.map (updateSeriesTextS env options)

/-- The accumulation step of `updatePercentValues` (lines 85-91): walk
every point of every series in order and add `Math.abs(item.y)` into the
`sumOfCorrespondingPoints` map under the point's x. -/
def buildSums (seriesList : List (Series α)) : List (α × ℚ) :=
  seriesList.foldl
    (fun m s => s.sourceData.foldl
      (fun m p => mapSet m p.x (mapGetD m p.x 0 + |p.y|)) m) []

/-- The per-point computation `item.yPercent = item.y / sum * 100`
(line 98): the division is unguarded, so a zero (or absent) denominator
produces a non-finite value. -/
def percCalc (y : ℚ) (sum : Option ℚ) : JsNum :=
  match sum with
  | none => .nonfinite
  | some s => if s = 0 then .nonfinite else .num (y / s * 100)

/-- The per-point body of `updatePercentValues`. -/
def percentPoint (sums : List (α × ℚ)) (p : Point α) : Point α :=
  { p with yPercent := some (percCalc p.y (mapGet sums p.x)) }

/-- The per-series body of `updatePercentValues` (lines 93-103): set each
point's `yPercent` and replace the series' `y` array with the list of
percent values. -/
def percentSeries (sums : List (α × ℚ)) (s : Series α) : Series α :=
  let pts := s.sourceData.map (percentPoint sums)
  { s with
    sourceData := pts,
    y := pts.map (fun p => YVal.ofOptJsNum p.yPercent) }

/-- `updatePercentValues` (lines 81-105): a no-op unless
`options.series.percentValues` is set. -/
def updatePercentValues (options : Options) (seriesList : List (Series α)) : List (Series α) :=
  if options.percentValues = true then
    seriesList.map (percentSeries (buildSums seriesList))
  else seriesList

/-- The `Set` insertion of `getUnifiedXAxisValues`: a JS `Set` keeps
first-seen insertion order. -/
def setAdd (acc : List α) (x : α) : List α :=
  if x ∈ acc then acc else acc ++ [x]

/-- `getUnifiedXAxisValues` (lines 107-123): the first-seen union of every
series' point x-values, sorted by natural order (lodash `sortBy` with the
identity iteratee, modelled by insertion sort) when `sorted` is set. -/
def getUnifiedXAxisValues (seriesList : List (Series α)) (sorted : Bool) : List α :=
  let result := seriesList.foldl
    (fun acc s => s.sourceData.foldl (fun acc p => setAdd acc p.x) acc) []
  if sorted then result.insertionSort (fun a b => a ≤ b) else result

/-- The `y` array rebuilt against the unified x-domain (lines 132-142):
the (possibly percent-adjusted) value where the series has a point,
`defaultY` where it does not. -/
def unifiedYCells (options : Options) (dY : YVal) (sd : List (Point α)) (unifiedX : List α) : List YVal :=
  unifiedX.map (fun x => match srcGet sd x with
    | some item =>
      if options.percentValues = true then YVal.ofOptJsNum item.yPercent
      else .num item.y
    | none => dY)

/-- The `error_y.array` rebuilt against the unified x-domain: the point's
`yError` (which may itself be absent) where the series has a point, `null`
where it does not. -/
def unifiedErrCells (sd : List (Point α)) (unifiedX : List α) : List (Option ℚ) :=
  unifiedX.map (fun x => match srcGet sd x with
    | some item => item.yError
    | none => none)

/-- The per-series body of `updateUnifiedXAxisValues`: the source builds
`x`, `y` and `error_y.array` in a single walk of the unified domain; the
three `map`s here walk the same domain. -/
def unifiedSeries (options : Options) (unifiedX : List α) (dY : YVal) (s : Series α) : Series α :=
  { s with
    x := unifiedX,
    y := unifiedYCells options dY s.sourceData unifiedX,
    errorY := unifiedErrCells s.sourceData unifiedX }

/-- `updateUnifiedXAxisValues` (lines 125-144). `defaultY` is the optional
second argument: passing `none` models the JS call without it, and the
`undefined` check of line 127 turns that into `null`. -/
def updateUnifiedXAxisValues (options : Options) (defaultY : Option YVal)
    (seriesList : List (Series α)) : List (Series α) :=
  let unifiedX := getUnifiedXAxisValues seriesList options.sortX
  let dY := defaultY.getD .null
  seriesList.map (unifiedSeries options unifiedX dY)

/-- Element-wise `prevSeries.y[i] + y` of line 160: walking the current
series' `y` array, adding the previous series' cell at the same index
(JS yields `undefined`, hence `NaN`, past the end of `prevY`). -/
def addYs : List YVal → List YVal → List YVal
  | _, [] => []
  | [], y :: ys => jsAdd .undef y :: addYs [] ys
  | p :: ps, y :: ys => jsAdd p y :: addYs ps ys

/-- The cumulative loop of lines 157-163 after the first series:
`prevY` is the y-array of the previously processed (already accumulated)
series. -/
def stackFrom (prevY : List YVal) : List (Series α) → List (Series α)
  | [] => []
  | s :: rest =>
    let s2 := { s with y := addYs prevY s.y }
    s2 :: stackFrom s2.y rest

/-- The whole cumulative loop: the first series is left as-is and becomes
the first `prevSeries`. -/
def stackSeries : List (Series α) → List (Series α)
  | [] => []
  | s :: rest => s :: stackFrom s.y rest

/-- `updatePieData` (lines 146-148): only the text pass runs. -/
def updatePieData (env : Env α) (options : Options) (seriesList : List (Series α)) : List (Series α) :=
  updateSeriesText env options seriesList

/-- `updateLineAreaData` (lines 150-173). -/
def updateLineAreaData (env : Env α) (options : Options) (seriesList : List (Series α)) : List (Series α) :=
  let sl1 := updatePercentValues options seriesList
  let sl2 :=
    if options.stacking = true then
      stackSeries (updateUnifiedXAxisValues options (some (.num 0)) sl1)
    else
      if options.sortX = true ∧ options.xAxisType = some "category" ∧
          options.globalSeriesType ≠ "box" then
        updateUnifiedXAxisValues options none sl1
      else sl1
  updateSeriesText env options sl2

/-- `updateDefaultData` (lines 175-188): like the line/area branch but with
no cumulative stacking (and no axis unification when stacking is set). -/
def updateDefaultData (env : Env α) (options : Options) (seriesList : List (Series α)) : List (Series α) :=
  let sl1 := updatePercentValues options seriesList
  let sl2 :=
    if options.stacking = false ∧ options.sortX = true ∧
        options.xAxisType = some "category" ∧ options.globalSeriesType ≠ "box" then
      updateUnifiedXAxisValues options none sl1
    else sl1
  updateSeriesText env options sl2

/-- The JS functions mutate the visible series in place and `updateData`
returns the original list; functionally, the processed visible series are
spliced back into their original positions. -/
def mergeBack : List (Series α) → List (Series α) → List (Series α)
  | [], _ => []
  | s :: rest, ps =>
    if s.visible = true then
      match ps with
      | p :: prest => p :: mergeBack rest prest
      | [] => s :: mergeBack rest []
    else s :: mergeBack rest ps

/-- `updateData` (lines 190-211): filter to the visible series, dispatch on
the global chart family (`heatmap` is a no-op, unknown families take the
default branch), return the full list. -/
def updateData (env : Env α) (options : Options) (seriesList : List (Series α)) : List (Series α) :=
  let visibleSeriesList := seriesList.filter (fun s => s.visible)
  if visibleSeriesList.isEmpty then seriesList
  else
    let processed :=
      if options.globalSeriesType = "pie" then
        updatePieData env options visibleSeriesList
      else if options.globalSeriesType = "line" ∨ options.globalSeriesType = "area" then
        updateLineAreaData env options visibleSeriesList
      else if options.globalSeriesType = "heatmap" then
        visibleSeriesList
      else
        updateDefaultData env options visibleSeriesList
    mergeBack seriesList processed

/-!
### Helper definitions used by the verification

`buildSums` and `getUnifiedXAxisValues` are nested folds; the lemmas below
factor them through flat lists of `(x, y)` pairs / x-values. The stacking
loop is decomposed into its pure y-array computation.
-/

/-- The single accumulation step of `updatePercentValues`, on one pair. -/
def sumStep (m : List (α × ℚ)) (q : α × ℚ) : List (α × ℚ) :=
  mapSet m q.1 (mapGetD m q.1 0 + |q.2|)

/-- The `(x, y)` pairs of one series, in insertion order. -/
def seriesPairs (s : Series α) : List (α × ℚ) :=
  s.sourceData.map (fun p => (p.x, p.y))

/-- The `(x, y)` pairs of a series list, series in order. -/
def allPairs (sl : List (Series α)) : List (α × ℚ) :=
  (sl.map seriesPairs).flatten

/-- Sum of `|y|` over the pairs whose key is `k`. -/
def matchSum (ps : List (α × ℚ)) (k : α) : ℚ :=
  ((ps.filter (fun q => decide (q.1 = k))).map (fun q => |q.2|)).sum

/-- The x-values of one series' points, in insertion order. -/
def seriesKeys (s : Series α) : List α :=
  s.sourceData.map (fun p => p.x)

/-- The x-values of a series list, series in order. -/
def allKeys (sl : List (Series α)) : List α :=
  (sl.map seriesKeys).flatten

/-- First-seen deduplication of a list of x-values: the spec's "union of
all visible series' point keys in first-seen order" over the flat list of
keys (series iterated in caller order, points in insertion order). -/
def firstSeenUnion (xs : List α) : List α :=
  xs.foldl setAdd []

/-- Replace the y-arrays of a series list positionally. -/
def applyYs : List (Series α) → List (List YVal) → List (Series α)
  | [], _ => []
  | s :: l, [] => s :: applyYs l []
  | s :: l, ys :: rest => { s with y := ys } :: applyYs l rest

/-- The y-arrays produced by the cumulative loop after the first series. -/
def stackYsFrom (py : List YVal) : List (List YVal) → List (List YVal)
  | [] => []
  | ys :: rest => addYs py ys :: stackYsFrom (addYs py ys) rest

/-- The y-arrays produced by the whole cumulative loop. -/
def stackYs : List (List YVal) → List (List YVal)
  | [] => []
  | ys :: rest => ys :: stackYsFrom ys rest

/-- All points carried at a given x-value by a series list, series in
order (each series contributes its point at that x if it has one). -/
def pointsAt (sl : List (Series α)) (x : α) : List (Point α) :=
  ((sl.map (fun s => s.sourceData)).flatten).filter (fun p => decide (p.x = x))

/-- The sum of `Math.abs(y)` over all points at `x` — the denominator the
percent pass accumulates for that x. -/
def sumAbsAt (sl : List (Series α)) (x : α) : ℚ :=
  ((pointsAt sl x).map (fun p => |p.y|)).sum

/-- JS summation of `yPercent` over all points at `x` (an absent
`yPercent` enters the sum as `undefined`, hence `NaN`). -/
def yPercentSumAt (sl : List (Series α)) (x : α) : JsNum :=
  (pointsAt sl x).foldl
    (fun acc p => jsNumAdd acc (match p.yPercent with
      | none => JsNum.nonfinite
      | some j => j)) (.num 0)

/-- Left-to-right JS summation `a1 + a2 + ... + an` of y cells, as the
stacking loop associates it (empty input gives `undefined`). -/
def jsSum1 : List YVal → YVal
  | [] => .undef
  | a :: l => l.foldl jsAdd a

/-- Are the output arrays of a series parallel, as claim C7 asks? -/
def lensEq (s : Series α) : Prop :=
  s.x.length = s.y.length ∧ s.y.length = s.errorY.length ∧
    s.errorY.length = s.text.length

/-- A well-formed input series: its output arrays (and, for the pie
family, its labels) all have one entry per source point. -/
def wellFormed (s : Series α) : Prop :=
  s.x.length = s.sourceData.length ∧ s.y.length = s.sourceData.length ∧
    s.errorY.length = s.sourceData.length ∧ s.text.length = s.sourceData.length ∧
    s.labels.length = s.sourceData.length

/-!
### Concrete sample inputs (used by witnesses and counterexamples)
-/

/-- A sample environment over integer x-values whose formatters produce
distinguishable strings. -/
def sampleEnv : Env ℤ :=
  { formatNumber := fun _ => "N",
    formatPercent := fun j => match j with
      | .num _ => "P"
      | .nonfinite => "Pnf",
    normalizeValue := fun _ _ => "V",
    formatSimpleTemplate := fun _ _ => "T" }

/-- A sample point at an integer x with no optional fields. -/
def samplePt (x : ℤ) (y : ℚ) : Point ℤ :=
  { x := x, y := y, yError := none, size := none, yPercent := none,
    rowX := x, rowY := x, rawFields := [] }

/-- A sample visible series whose arrays are aligned with its points. -/
def sampleSer (n : String) (pts : List (Point ℤ)) : Series ℤ :=
  { name := n, visible := true, yaxis := "y", sourceData := pts,
    labels := pts.map (fun p => p.x), x := pts.map (fun p => p.x),
    y := pts.map (fun p => YVal.num p.y), errorY := pts.map (fun _ => none),
    text := pts.map (fun _ => JsStr.str ""), hover := [] }

/-- Negate a point's `yPercent` (the sign-stripping claim compares a
point against the same point with `yPercent` negated). -/
def negYPercentPoint (p : Point α) : Point α :=
  { p with yPercent := p.yPercent.map jsNeg }

/-- Negate `yPercent` on every point of a series. -/
def negYPercentSeries (s : Series α) : Series α :=
  { s with sourceData := s.sourceData.map negYPercentPoint }

/-- Sample options for a scatter chart. -/
def scatterOptions : Options :=
  { globalSeriesType := "scatter", seriesOptions := [], percentValues := false,
    stacking := false, sortX := false, xAxisType := none, yAxisType := none,
    y2AxisType := none, textFormat := "" }

/-- Sample options for a plain column chart (default family, everything
off). -/
def colOptions : Options :=
  { globalSeriesType := "column", seriesOptions := [], percentValues := false,
    stacking := false, sortX := false, xAxisType := none, yAxisType := none,
    y2AxisType := none, textFormat := "" }

/-- Sample options with percent mode on (default chart family). -/
def pctOptions : Options :=
  { globalSeriesType := "column", seriesOptions := [], percentValues := true,
    stacking := false, sortX := false, xAxisType := none, yAxisType := none,
    y2AxisType := none, textFormat := "" }

/-- Sample options for a stacked line chart. -/
def stackOptions : Options :=
  { globalSeriesType := "line", seriesOptions := [], percentValues := false,
    stacking := true, sortX := false, xAxisType := some "category",
    yAxisType := none, y2AxisType := none, textFormat := "" }

/-- Sample options for a sorted category line chart (axis unification). -/
def sortOptions : Options :=
  { globalSeriesType := "line", seriesOptions := [], percentValues := false,
    stacking := false, sortX := true, xAxisType := some "category",
    yAxisType := none, y2AxisType := none, textFormat := "" }

/-- Sample options for a pie chart with percent mode off. -/
def pieOptions : Options :=
  { globalSeriesType := "pie", seriesOptions := [], percentValues := false,
    stacking := false, sortX := false, xAxisType := none, yAxisType := none,
    y2AxisType := none, textFormat := "" }

/-!
### Basic lemmas: projections of the per-series transforms

Each per-series pass is a record update, so the fields it does not write
are preserved definitionally.
-/

section ProjectionLemmas

variable (env : Env α) (options : Options) (s : Series α)

@[simp] theorem updateSeriesTextS_name : (updateSeriesTextS env options s).name = s.name := rfl
@[simp] theorem updateSeriesTextS_visible : (updateSeriesTextS env options s).visible = s.visible := rfl
@[simp] theorem updateSeriesTextS_yaxis : (updateSeriesTextS env options s).yaxis = s.yaxis := rfl
@[simp] theorem updateSeriesTextS_sourceData : (updateSeriesTextS env options s).sourceData = s.sourceData := rfl
@[simp] theorem updateSeriesTextS_labels : (updateSeriesTextS env options s).labels = s.labels := rfl
@[simp] theorem updateSeriesTextS_x : (updateSeriesTextS env options s).x = s.x := rfl
@[simp] theorem updateSeriesTextS_y : (updateSeriesTextS env options s).y = s.y := rfl
@[simp] theorem updateSeriesTextS_errorY : (updateSeriesTextS env options s).errorY = s.errorY := rfl
@[simp] theorem updateSeriesTextS_hover : (updateSeriesTextS env options s).hover = [] := rfl

theorem updateSeriesTextS_text :
    (updateSeriesTextS env options s).text =
      (if options.globalSeriesType = "pie" then s.labels else s.x).map
        (fun x => formatTextItem env options
          (buildBag env options s.name s.yaxis s.sourceData x)) := rfl

variable (m : List (α × ℚ)) (p : Point α)

@[simp] theorem percentPoint_x : (percentPoint m p).x = p.x := rfl
@[simp] theorem percentPoint_y : (percentPoint m p).y = p.y := rfl
@[simp] theorem percentPoint_yError : (percentPoint m p).yError = p.yError := rfl
@[simp] theorem percentPoint_size : (percentPoint m p).size = p.size := rfl
@[simp] theorem percentPoint_rowX : (percentPoint m p).rowX = p.rowX := rfl
@[simp] theorem percentPoint_rowY : (percentPoint m p).rowY = p.rowY := rfl
@[simp] theorem percentPoint_rawFields : (percentPoint m p).rawFields = p.rawFields := rfl
@[simp] theorem percentPoint_yPercent :
    (percentPoint m p).yPercent = some (percCalc p.y (mapGet m p.x)) := rfl

theorem percentPoint_idem : percentPoint m (percentPoint m p) = percentPoint m p := rfl

@[simp] theorem percentSeries_name : (percentSeries m s).name = s.name := rfl
@[simp] theorem percentSeries_visible : (percentSeries m s).visible = s.visible := rfl
@[simp] theorem percentSeries_yaxis : (percentSeries m s).yaxis = s.yaxis := rfl
@[simp] theorem percentSeries_labels : (percentSeries m s).labels = s.labels := rfl
@[simp] theorem percentSeries_x : (percentSeries m s).x = s.x := rfl
@[simp] theorem percentSeries_errorY : (percentSeries m s).errorY = s.errorY := rfl
@[simp] theorem percentSeries_text : (percentSeries m s).text = s.text := rfl
@[simp] theorem percentSeries_hover : (percentSeries m s).hover = s.hover := rfl
@[simp] theorem percentSeries_sourceData :
    (percentSeries m s).sourceData = s.sourceData.map (percentPoint m) := rfl
@[simp] theorem percentSeries_y :
    (percentSeries m s).y =
      (s.sourceData.map (percentPoint m)).map (fun p => YVal.ofOptJsNum p.yPercent) := rfl

variable (unifiedX : List α) (dY : YVal)

@[simp] theorem unifiedSeries_name : (unifiedSeries options unifiedX dY s).name = s.name := rfl
@[simp] theorem unifiedSeries_visible : (unifiedSeries options unifiedX dY s).visible = s.visible := rfl
@[simp] theorem unifiedSeries_yaxis : (unifiedSeries options unifiedX dY s).yaxis = s.yaxis := rfl
@[simp] theorem unifiedSeries_labels : (unifiedSeries options unifiedX dY s).labels = s.labels := rfl
@[simp] theorem unifiedSeries_sourceData :
    (unifiedSeries options unifiedX dY s).sourceData = s.sourceData := rfl
@[simp] theorem unifiedSeries_text : (unifiedSeries options unifiedX dY s).text = s.text := rfl
@[simp] theorem unifiedSeries_hover : (unifiedSeries options unifiedX dY s).hover = s.hover := rfl
@[simp] theorem unifiedSeries_x : (unifiedSeries options unifiedX dY s).x = unifiedX := rfl
@[simp] theorem unifiedSeries_y :
    (unifiedSeries options unifiedX dY s).y = unifiedYCells options dY s.sourceData unifiedX := rfl
@[simp] theorem unifiedSeries_errorY :
    (unifiedSeries options unifiedX dY s).errorY = unifiedErrCells s.sourceData unifiedX := rfl

end ProjectionLemmas

/-! ### List index helpers -/

theorem listGetD_map {β γ : Type} (f : β → γ) (d : γ) (d2 : β) :
    ∀ (l : List β) (n : Nat), n < l.length → (l.map f).getD n d = f (l.getD n d2)
  | _ :: _, 0, _ => rfl
  | _ :: l, n + 1, h => listGetD_map f d d2 l n (by simpa using h)

theorem listGetD_of_lt {β : Type} (d d2 : β) :
    ∀ (l : List β) (n : Nat), n < l.length → l.getD n d = l.getD n d2
  | _ :: _, 0, _ => rfl
  | _ :: l, n + 1, h => listGetD_of_lt d d2 l n (by simpa using h)

@[simp] theorem addYs_length (py : List YVal) (ys : List YVal) : (addYs py ys).length = ys.length := by
  induction ys generalizing py with
  | nil => cases py <;> rfl
  | cons y ys ih => cases py <;> simp [addYs, ih]

theorem addYs_getD (d : YVal) :
    ∀ (py ys : List YVal) (i : Nat), i < ys.length →
      (addYs py ys).getD i d = jsAdd (py.getD i .undef) (ys.getD i .undef)
  | [], y :: ys, 0, _ => rfl
  | _ :: _, y :: ys, 0, _ => rfl
  | [], y :: ys, i + 1, h => by
    simpa [addYs] using addYs_getD d [] ys i (by simpa using h)
  | p :: ps, y :: ys, i + 1, h => by
    simpa [addYs] using addYs_getD d ps ys i (by simpa using h)

/-! ### Association lists: lookup after update -/

theorem mapGet_cons {β : Type} (kv : α × β) (m : List (α × β)) (k : α) :
    mapGet (kv :: m) k = if kv.1 = k then some kv.2 else mapGet m k := by
  by_cases h : kv.1 = k <;> simp [mapGet, List.find?, h]

theorem mapSet_get_self {β : Type} (v : β) :
    ∀ (m : List (α × β)) (k : α), mapGet (mapSet m k v) k = some v := by
  intro m
  induction m with
  | nil => intro k; simp [mapSet, mapGet_cons]
  | cons kv m ih =>
    intro k
    by_cases h : kv.1 = k
    · simp [mapSet, h, mapGet_cons]
    · simp [mapSet, h, mapGet_cons, ih]

theorem mapSet_get_other {β : Type} (v : β) :
    ∀ (m : List (α × β)) (k k2 : α), k2 ≠ k → mapGet (mapSet m k v) k2 = mapGet m k2 := by
  intro m
  induction m with
  | nil =>
    intro k k2 h
    have h2 : ¬ (k = k2) := fun hh => h hh.symm
    simp [mapSet, mapGet_cons, h2]
  | cons kv m ih =>
    intro k k2 h
    by_cases hk : kv.1 = k
    · subst hk
      have h2 : ¬ (kv.1 = k2) := fun hh => h hh.symm
      simp [mapSet, mapGet_cons, h2]
    · simp [mapSet, hk, mapGet_cons, ih _ _ h]

/-! ### `buildSums` as a fold over the flat list of `(x, y)` pairs -/

theorem buildSums_eq_sumPairs (sl : List (Series α)) :
    buildSums sl = (allPairs sl).foldl sumStep [] := by
  suffices h : ∀ (sl : List (Series α)) (m : List (α × ℚ)),
      sl.foldl (fun m s => s.sourceData.foldl
        (fun m p => mapSet m p.x (mapGetD m p.x 0 + |p.y|)) m) m =
      (allPairs sl).foldl sumStep m from h sl []
  intro sl
  induction sl with
  | nil => intro m; rfl
  | cons s sl ih =>
    intro m
    have hser : ∀ (m2 : List (α × ℚ)), (seriesPairs s).foldl sumStep m2 =
        s.sourceData.foldl (fun m p => mapSet m p.x (mapGetD m p.x 0 + |p.y|)) m2 := by
      intro m2
      rw [seriesPairs, List.foldl_map]
      rfl
    have hsplit : allPairs (s :: sl) = seriesPairs s ++ allPairs sl := by
      rw [allPairs, List.map_cons, List.flatten_cons]
      rfl
    rw [List.foldl_cons, ih, hsplit, List.foldl_append, hser]

theorem matchSum_of_not_any :
    ∀ (ps : List (α × ℚ)) (k : α),
      ps.any (fun q => decide (q.1 = k)) = false → matchSum ps k = 0
  | [], _, _ => rfl
  | q :: ps, k, h => by
    rw [List.any_cons, Bool.or_eq_false_iff] at h
    obtain ⟨h1, h2⟩ := h
    have hmatch : matchSum (q :: ps) k = matchSum ps k := by
      simp [matchSum, List.filter_cons, h1]
    rw [hmatch]
    exact matchSum_of_not_any ps k h2

theorem sumPairs_get_aux :
    ∀ (ps : List (α × ℚ)) (m : List (α × ℚ)) (k : α),
      mapGet (ps.foldl sumStep m) k =
        if ps.any (fun q => decide (q.1 = k)) then
          some (mapGetD m k 0 + matchSum ps k)
        else mapGet m k := by
  intro ps
  induction ps with
  | nil => intro m k; simp [matchSum]
  | cons q ps ih =>
    intro m k
    rw [List.foldl_cons, ih]
    by_cases hq : q.1 = k
    · have hget : mapGet (sumStep m q) k = some (mapGetD m k 0 + |q.2|) := by
        rw [sumStep, hq, mapSet_get_self]
      have hgetD : mapGetD (sumStep m q) k 0 = mapGetD m k 0 + |q.2| := by
        rw [mapGetD, hget]; rfl
      have hmatch : matchSum (q :: ps) k = |q.2| + matchSum ps k := by
        simp [matchSum, List.filter_cons, hq]
      have hany : (q :: ps).any (fun r => decide (r.1 = k)) = true := by
        simp [List.any_cons, hq]
      by_cases hps : ps.any (fun r => decide (r.1 = k)) = true
      · rw [if_pos hps, if_pos hany, hgetD, hmatch, add_assoc]
      · have hps2 : ps.any (fun r => decide (r.1 = k)) = false := by
          cases hb : ps.any (fun r => decide (r.1 = k)) with
          | false => rfl
          | true => exact absurd hb hps
        rw [if_neg hps, if_pos hany, hget, hmatch,
          matchSum_of_not_any ps k hps2, add_zero]
    · have hget : mapGet (sumStep m q) k = mapGet m k := by
        rw [sumStep]
        exact mapSet_get_other _ _ _ _ (fun hh => hq hh.symm)
      have hgetD : mapGetD (sumStep m q) k 0 = mapGetD m k 0 := by
        rw [mapGetD, hget]; rfl
      have hmatch : matchSum (q :: ps) k = matchSum ps k := by
        simp [matchSum, List.filter_cons, hq]
      have hany : (q :: ps).any (fun r => decide (r.1 = k)) =
          ps.any (fun r => decide (r.1 = k)) := by
        simp [List.any_cons, hq]
      rw [hgetD, hget, hmatch, hany]

/-- The accumulated map of `updatePercentValues`, characterized: the value
under `k` is the sum of `Math.abs(y)` over every point (of every series)
whose x-value is `k`; a key that no point carries is absent. -/
theorem buildSums_get (sl : List (Series α)) (k : α) :
    mapGet (buildSums sl) k =
      if (allPairs sl).any (fun q => decide (q.1 = k)) then
        some (matchSum (allPairs sl) k)
      else none := by
  rw [buildSums_eq_sumPairs, sumPairs_get_aux]
  simp [mapGetD, mapGet]

/-! ### `getUnifiedXAxisValues` as a fold over the flat list of x-values -/

theorem getUnified_eq (sl : List (Series α)) (sorted : Bool) :
    getUnifiedXAxisValues sl sorted =
      if sorted then (firstSeenUnion (allKeys sl)).insertionSort (fun a b => a ≤ b)
      else firstSeenUnion (allKeys sl) := by
  have h : ∀ (sl : List (Series α)) (acc : List α),
      sl.foldl (fun acc s => s.sourceData.foldl (fun acc p => setAdd acc p.x) acc) acc =
      (allKeys sl).foldl setAdd acc := by
    intro sl
    induction sl with
    | nil => intro acc; rfl
    | cons s sl ih =>
      intro acc
      have hser : ∀ (a2 : List α), (seriesKeys s).foldl setAdd a2 =
          s.sourceData.foldl (fun acc p => setAdd acc p.x) a2 := by
        intro a2
        rw [seriesKeys, List.foldl_map]
      have hsplit : allKeys (s :: sl) = seriesKeys s ++ allKeys sl := by
        rw [allKeys, List.map_cons, List.flatten_cons]
        rfl
      rw [List.foldl_cons, ih, hsplit, List.foldl_append, hser]
  simp only [getUnifiedXAxisValues]
  rw [h sl []]
  rfl

theorem buildSums_congr (sl sl' : List (Series α))
    (h : sl.map seriesPairs = sl'.map seriesPairs) : buildSums sl = buildSums sl' := by
  rw [buildSums_eq_sumPairs, buildSums_eq_sumPairs, allPairs, allPairs, h]

theorem getUnified_congr (sl sl' : List (Series α))
    (h : sl.map seriesKeys = sl'.map seriesKeys) (b : Bool) :
    getUnifiedXAxisValues sl b = getUnifiedXAxisValues sl' b := by
  rw [getUnified_eq, getUnified_eq, allKeys, allKeys, h]

/-! ### The stacking loop, decomposed into its y-array computation -/

theorem stackFrom_eq (py : List YVal) :
    ∀ (l : List (Series α)),
      stackFrom py l = applyYs l (stackYsFrom py (l.map (fun s => s.y)))
  | [] => rfl
  | s :: l => by
    simp only [stackFrom, List.map_cons, stackYsFrom, applyYs]
    exact congrArg (List.cons _) (stackFrom_eq (addYs py s.y) l)

theorem stackSeries_eq (l : List (Series α)) :
    stackSeries l = applyYs l (stackYs (l.map (fun s => s.y))) := by
  cases l with
  | nil => rfl
  | cons s l =>
    simp only [stackSeries, List.map_cons, stackYs, applyYs]
    exact congrArg (List.cons _) (stackFrom_eq s.y l)

theorem applyYs_map_proj {γ : Type} (g : Series α → γ)
    (hg : ∀ (s : Series α) (ys : List YVal), g { s with y := ys } = g s) :
    ∀ (l : List (Series α)) (yss : List (List YVal)), (applyYs l yss).map g = l.map g
  | [], _ => rfl
  | s :: l, [] => by
    simp only [applyYs, List.map_cons]
    rw [applyYs_map_proj g hg l []]
  | s :: l, ys :: rest => by
    simp only [applyYs, List.map_cons]
    rw [hg, applyYs_map_proj g hg l rest]

theorem applyYs_length :
    ∀ (l : List (Series α)) (yss : List (List YVal)), (applyYs l yss).length = l.length
  | [], _ => rfl
  | s :: l, [] => by simp [applyYs, applyYs_length l []]
  | s :: l, ys :: rest => by simp [applyYs, applyYs_length l rest]

/-! ### `mergeBack` lemmas -/

theorem mergeBack_length :
    ∀ (sl ps : List (Series α)), (mergeBack sl ps).length = sl.length
  | [], _ => rfl
  | s :: rest, ps => by
    by_cases hv : s.visible = true
    · cases ps with
      | nil => simp [mergeBack, hv, mergeBack_length rest []]
      | cons p prest => simp [mergeBack, hv, mergeBack_length rest prest]
    · simp [mergeBack, hv, mergeBack_length rest ps]

theorem mergeBack_filter :
    ∀ (sl ps : List (Series α)),
      ps.map (fun s => s.visible) = (sl.filter (fun s => s.visible)).map (fun s => s.visible) →
      (mergeBack sl ps).filter (fun s => s.visible) = ps
  | [], ps, h => by
    simp only [List.filter_nil, List.map_nil] at h
    simp [mergeBack, List.map_eq_nil_iff.mp h]
  | s :: rest, ps, h => by
    by_cases hv : s.visible = true
    · rw [List.filter_cons_of_pos (by simpa using hv), List.map_cons] at h
      cases ps with
      | nil => exact absurd h (by simp)
      | cons p prest =>
        rw [List.map_cons] at h
        have hp : p.visible = true := by
          have := congrArg (fun l => l.headD false) h
          simpa [hv] using this
        have hrest : prest.map (fun s => s.visible) =
            (rest.filter (fun s => s.visible)).map (fun s => s.visible) := by
          have := congrArg (fun l => l.tail) h
          simpa using this
        simp only [mergeBack, hv, if_true]
        rw [List.filter_cons_of_pos (by simpa using hp)]
        rw [mergeBack_filter rest prest hrest]
    · rw [List.filter_cons_of_neg (by simpa using hv)] at h
      have hm : mergeBack (s :: rest) ps = s :: mergeBack rest ps := by
        simp [mergeBack, hv]
      rw [hm, List.filter_cons_of_neg (by simpa using hv)]
      exact mergeBack_filter rest ps h

theorem mergeBack_idem :
    ∀ (sl ps : List (Series α)),
      ps.map (fun s => s.visible) = (sl.filter (fun s => s.visible)).map (fun s => s.visible) →
      mergeBack (mergeBack sl ps) ps = mergeBack sl ps
  | [], ps, _ => rfl
  | s :: rest, ps, h => by
    by_cases hv : s.visible = true
    · rw [List.filter_cons_of_pos (by simpa using hv), List.map_cons] at h
      cases ps with
      | nil => exact absurd h (by simp)
      | cons p prest =>
        rw [List.map_cons] at h
        have hp : p.visible = true := by
          have := congrArg (fun l => l.headD false) h
          simpa [hv] using this
        have hrest : prest.map (fun s => s.visible) =
            (rest.filter (fun s => s.visible)).map (fun s => s.visible) := by
          have := congrArg (fun l => l.tail) h
          simpa using this
        simp only [mergeBack, hv, if_true, hp]
        rw [mergeBack_idem rest prest hrest]
    · rw [List.filter_cons_of_neg (by simpa using hv)] at h
      have hm : mergeBack (s :: rest) ps = s :: mergeBack rest ps := by
        simp [mergeBack, hv]
      rw [hm]
      have hm2 : mergeBack (s :: mergeBack rest ps) ps =
          s :: mergeBack (mergeBack rest ps) ps := by
        simp [mergeBack, hv]
      rw [hm2, mergeBack_idem rest ps h]

/-! ### Points at an x-value and the percent denominator -/

theorem allPairs_eq (sl : List (Series α)) :
    allPairs sl = ((sl.map (fun s => s.sourceData)).flatten).map (fun p => (p.x, p.y)) := by
  rw [allPairs, List.map_flatten]
  rw [show sl.map seriesPairs =
    (sl.map (fun s => s.sourceData)).map (List.map (fun p => (p.x, p.y))) from by
      rw [List.map_map]; rfl]

theorem matchSum_allPairs (sl : List (Series α)) (x : α) :
    matchSum (allPairs sl) x = sumAbsAt sl x := by
  rw [matchSum, allPairs_eq, List.filter_map, List.map_map, sumAbsAt, pointsAt]
  rfl

theorem buildSums_get_of_points (sl : List (Series α)) (x : α)
    (h : pointsAt sl x ≠ []) :
    mapGet (buildSums sl) x = some (sumAbsAt sl x) := by
  obtain ⟨p, hp⟩ := List.exists_mem_of_ne_nil _ h
  have hmem : p ∈ (sl.map (fun s => s.sourceData)).flatten ∧ decide (p.x = x) = true :=
    List.mem_filter.mp hp
  have hany : (allPairs sl).any (fun q => decide (q.1 = x)) = true := by
    rw [allPairs_eq]
    refine List.any_eq_true.mpr ⟨(p.x, p.y), List.mem_map.mpr ⟨p, hmem.1, rfl⟩, ?_⟩
    simpa using hmem.2
  rw [buildSums_get, if_pos hany, matchSum_allPairs]

theorem pointsAt_nonempty_of_sum_ne (sl : List (Series α)) (x : α)
    (h : sumAbsAt sl x ≠ 0) : pointsAt sl x ≠ [] := by
  intro hnil
  apply h
  rw [sumAbsAt, hnil]
  rfl

theorem pointsAt_x (sl : List (Series α)) (x : α) :
    ∀ p ∈ pointsAt sl x, p.x = x := by
  intro p hp
  have := (List.mem_filter.mp hp).2
  simpa using this

theorem pointsAt_percent (m : List (α × ℚ)) (sl : List (Series α)) (x : α) :
    pointsAt (sl.map (percentSeries m)) x = (pointsAt sl x).map (percentPoint m) := by
  rw [pointsAt, pointsAt]
  rw [show (sl.map (percentSeries m)).map (fun s => s.sourceData) =
      (sl.map (fun s => s.sourceData)).map (List.map (percentPoint m)) from by
        rw [List.map_map, List.map_map]; rfl]
  rw [← List.map_flatten, List.filter_map]
  rfl

theorem foldl_jsNumAdd_num (f : Point α → ℚ) :
    ∀ (pts : List (Point α)) (a : ℚ) (g : Point α → JsNum),
      (∀ p ∈ pts, g p = .num (f p)) →
      pts.foldl (fun acc p => jsNumAdd acc (g p)) (.num a) = .num (a + (pts.map f).sum)
  | [], a, g, _ => by simp
  | p :: pts, a, g, h => by
    rw [List.foldl_cons, h p (by simp), List.map_cons, List.sum_cons]
    rw [show jsNumAdd (.num a) (.num (f p)) = .num (a + f p) from rfl]
    rw [foldl_jsNumAdd_num f pts (a + f p) g (fun q hq => h q (by simp [hq]))]
    ring_nf

theorem sum_div_mul (c d : ℚ) :
    ∀ (l : List ℚ), (l.map (fun q => q / c * d)).sum = l.sum / c * d
  | [] => by simp
  | q :: l => by
    rw [List.map_cons, List.sum_cons, List.sum_cons, sum_div_mul c d l]
    ring

theorem mergeBack_map (f : Series α → Series α) :
    ∀ (sl : List (Series α)),
      mergeBack sl ((sl.filter (fun s => s.visible)).map f) =
        sl.map (fun s => if s.visible = true then f s else s)
  | [] => rfl
  | s :: rest => by
    by_cases hv : s.visible = true
    · rw [List.filter_cons_of_pos (by simpa using hv), List.map_cons]
      simp only [mergeBack, hv, if_true, List.map_cons]
      rw [mergeBack_map f rest]
    · rw [List.filter_cons_of_neg (by simpa using hv)]
      have hm : mergeBack (s :: rest) ((rest.filter (fun s => s.visible)).map f) =
          s :: mergeBack rest ((rest.filter (fun s => s.visible)).map f) := by
        simp [mergeBack, hv]
      rw [hm, mergeBack_map f rest, List.map_cons, if_neg hv]

theorem listGetD_mem {β : Type} (d : β) :
    ∀ (l : List β) (n : Nat), n < l.length → l.getD n d ∈ l
  | b :: l, 0, _ => List.mem_cons_self b l
  | b :: l, n + 1, h => List.mem_cons_of_mem b (listGetD_mem d l n (by simpa using h))

/-- `updateData` always returns a list of the same length as its input. -/
theorem updateData_length (env : Env α) (options : Options) (sl : List (Series α)) :
    (updateData env options sl).length = sl.length := by
  simp only [updateData]
  split
  · rfl
  · exact mergeBack_length _ _

/-! ### Token-bag lookup lemmas -/

theorem bagGet_cons (kv : String × String) (b : List (String × String)) (k : String) :
    bagGet (kv :: b) k = if kv.1 = k then some kv.2 else bagGet b k := by
  by_cases h : kv.1 = k <;> simp [bagGet, List.find?, h]

theorem bagSet_get_self (v : String) :
    ∀ (b : List (String × String)) (k : String), bagGet (bagSet b k v) k = some v := by
  intro b
  induction b with
  | nil => intro k; simp [bagSet, bagGet_cons]
  | cons kv b ih =>
    intro k
    by_cases h : kv.1 = k
    · simp [bagSet, h, bagGet_cons]
    · simp [bagSet, h, bagGet_cons, ih]

theorem bagSet_get_other (v : String) :
    ∀ (b : List (String × String)) (k k2 : String), k2 ≠ k →
      bagGet (bagSet b k v) k2 = bagGet b k2 := by
  intro b
  induction b with
  | nil =>
    intro k k2 h
    have h2 : ¬ (k = k2) := fun hh => h hh.symm
    simp [bagSet, bagGet_cons, h2]
  | cons kv b ih =>
    intro k k2 h
    by_cases hk : kv.1 = k
    · subst hk
      have h2 : ¬ (kv.1 = k2) := fun hh => h hh.symm
      simp [bagSet, bagGet_cons, h2]
    · simp [bagSet, hk, bagGet_cons, ih _ _ h]

theorem bagGet_foldRaw :
    ∀ (raws : List (String × String)) (b : List (String × String)) (k : String),
      (∀ kv ∈ raws, kv.1 ≠ k) →
      bagGet (raws.foldl (fun b kv => bagSet b kv.1 kv.2) b) k = bagGet b k
  | [], _, _, _ => rfl
  | kv :: raws, b, k, h => by
    rw [List.foldl_cons]
    rw [bagGet_foldRaw raws _ k (fun kv2 h2 => h kv2 (List.mem_cons_of_mem kv h2))]
    exact bagSet_get_other _ _ _ _ (fun hh => h kv (List.mem_cons_self kv raws) hh.symm)

theorem srcGet_map (f : Point α → Point α) (hf : ∀ p, (f p).x = p.x) :
    ∀ (sd : List (Point α)) (x : α), srcGet (sd.map f) x = (srcGet sd x).map f := by
  intro sd
  induction sd with
  | nil => intro x; rfl
  | cons p sd ih =>
    intro x
    by_cases h : p.x = x
    · simp [srcGet, List.find?, hf, h]
    · simp only [srcGet, List.map_cons, List.find?] at *
      rw [show (decide ((f p).x = x)) = false from by simp [hf, h],
        show (decide (p.x = x)) = false from by simp [h]]
      exact ih x

theorem jsAbsOpt_negMap (o : Option JsNum) :
    jsAbsOpt (o.map jsNeg) = jsAbsOpt o := by
  cases o with
  | none => rfl
  | some j =>
    cases j with
    | num q => simp [jsAbsOpt, jsNeg, Option.map_some, abs_neg]
    | nonfinite => rfl

@[simp] theorem negYPercentPoint_x (p : Point α) : (negYPercentPoint p).x = p.x := rfl
@[simp] theorem negYPercentPoint_y (p : Point α) : (negYPercentPoint p).y = p.y := rfl
@[simp] theorem negYPercentPoint_yError (p : Point α) :
    (negYPercentPoint p).yError = p.yError := rfl
@[simp] theorem negYPercentPoint_size (p : Point α) :
    (negYPercentPoint p).size = p.size := rfl
@[simp] theorem negYPercentPoint_rowX (p : Point α) :
    (negYPercentPoint p).rowX = p.rowX := rfl
@[simp] theorem negYPercentPoint_rowY (p : Point α) :
    (negYPercentPoint p).rowY = p.rowY := rfl
@[simp] theorem negYPercentPoint_rawFields (p : Point α) :
    (negYPercentPoint p).rawFields = p.rawFields := rfl
@[simp] theorem negYPercentPoint_yPercent (p : Point α) :
    (negYPercentPoint p).yPercent = p.yPercent.map jsNeg := rfl
@[simp] theorem negYPercentSeries_sourceData (s : Series α) :
    (negYPercentSeries s).sourceData = s.sourceData.map negYPercentPoint := rfl

/-- A bag lookup under every key that `buildBag` sets after `@@y` (and
that the raw fields do not override) falls through to the first two
`bagSet`s. -/
theorem buildBag_get (env : Env α) (options : Options) (name yaxis : String)
    (sd : List (Point α)) (x : α) (item : Point α) (k : String)
    (hitem : srcGet sd x = some item)
    (hk1 : k ≠ "@@yError") (hk2 : k ≠ "@@size") (hk3 : k ≠ "@@yPercent")
    (hraw : ∀ kv ∈ item.rawFields, kv.1 ≠ k) :
    bagGet (buildBag env options name yaxis sd x) k =
      bagGet (bagSet (bagSet [("@@name", name)] "@@x"
          (formatValue env options item.rowX "x")) "@@y"
        (if mapGetD options.seriesOptions name options.globalSeriesType = "bubble" ∨
            mapGetD options.seriesOptions name options.globalSeriesType = "scatter" then
          formatValue env options item.rowY yaxis
         else env.formatNumber item.y)) k := by
  simp only [buildBag, hitem]
  rw [bagGet_foldRaw _ _ _ hraw]
  split
  · rw [bagSet_get_other _ _ _ _ hk3]
    split
    · split
      · rfl
      · rw [bagSet_get_other _ _ _ _ hk1]
    · rw [bagSet_get_other _ _ _ _ hk2]
      split
      · rfl
      · rw [bagSet_get_other _ _ _ _ hk1]
  · split
    · split
      · rfl
      · rw [bagSet_get_other _ _ _ _ hk1]
    · rw [bagSet_get_other _ _ _ _ hk2]
      split
      · rfl
      · rw [bagSet_get_other _ _ _ _ hk1]

/-- For a point of a series whose `yPercent` field has been negated, the
token bag is unchanged: the percent token passes through `Math.abs`. -/
theorem buildBag_negYPercent (env : Env α) (options : Options) (name yaxis : String)
    (sd : List (Point α)) (x : α) :
    buildBag env options name yaxis (sd.map negYPercentPoint) x =
      buildBag env options name yaxis sd x := by
  rw [buildBag, buildBag, srcGet_map negYPercentPoint (fun p => rfl)]
  cases h : srcGet sd x with
  | none => rfl
  | some item =>
    simp only [Option.map_some', negYPercentPoint_x, negYPercentPoint_y,
      negYPercentPoint_yError, negYPercentPoint_size, negYPercentPoint_rowX,
      negYPercentPoint_rowY, negYPercentPoint_rawFields, negYPercentPoint_yPercent]
    rw [jsAbsOpt_negMap]

/-! ### Visibility preservation and membership through the passes -/

theorem map_vis (f : Series α → Series α) (hf : ∀ s, (f s).visible = s.visible)
    (l : List (Series α)) :
    (l.map f).map (fun s => s.visible) = l.map (fun s => s.visible) := by
  rw [List.map_map]
  exact List.map_congr_left (fun s _ => hf s)

theorem vis_stackSeries (l : List (Series α)) :
    (stackSeries l).map (fun s => s.visible) = l.map (fun s => s.visible) := by
  rw [stackSeries_eq]
  exact applyYs_map_proj (fun s => s.visible) (fun s ys => rfl) l _

theorem vis_updateSeriesText (env : Env α) (options : Options) (l : List (Series α)) :
    (updateSeriesText env options l).map (fun s => s.visible) =
      l.map (fun s => s.visible) :=
  map_vis (updateSeriesTextS env options) (fun s => rfl) l

theorem vis_updatePercentValues (options : Options) (l : List (Series α)) :
    (updatePercentValues options l).map (fun s => s.visible) =
      l.map (fun s => s.visible) := by
  rw [updatePercentValues]
  split
  · exact map_vis (percentSeries (buildSums l)) (fun s => rfl) l
  · rfl

theorem vis_updateUnifiedXAxisValues (options : Options) (d : Option YVal)
    (l : List (Series α)) :
    (updateUnifiedXAxisValues options d l).map (fun s => s.visible) =
      l.map (fun s => s.visible) := by
  simp only [updateUnifiedXAxisValues]
  exact map_vis (unifiedSeries options (getUnifiedXAxisValues l options.sortX)
    (d.getD YVal.null)) (fun s => rfl) l

theorem vis_updateLineAreaData (env : Env α) (options : Options) (l : List (Series α)) :
    (updateLineAreaData env options l).map (fun s => s.visible) =
      l.map (fun s => s.visible) := by
  simp only [updateLineAreaData]
  rw [vis_updateSeriesText]
  split
  · rw [vis_stackSeries, vis_updateUnifiedXAxisValues, vis_updatePercentValues]
  · split
    · rw [vis_updateUnifiedXAxisValues, vis_updatePercentValues]
    · rw [vis_updatePercentValues]

theorem vis_updateDefaultData (env : Env α) (options : Options) (l : List (Series α)) :
    (updateDefaultData env options l).map (fun s => s.visible) =
      l.map (fun s => s.visible) := by
  simp only [updateDefaultData]
  rw [vis_updateSeriesText]
  split
  · rw [vis_updateUnifiedXAxisValues, vis_updatePercentValues]
  · rw [vis_updatePercentValues]

theorem mergeBack_mem_strong :
    ∀ (sl ps : List (Series α)) (s2 : Series α),
      ps.map (fun s => s.visible) = (sl.filter (fun s => s.visible)).map (fun s => s.visible) →
      s2 ∈ mergeBack sl ps → s2 ∈ ps ∨ (s2 ∈ sl ∧ s2.visible = false)
  | [], ps, s2, _, h => absurd h (List.not_mem_nil s2)
  | s :: rest, ps, s2, hvm, h => by
    by_cases hv : s.visible = true
    · rw [List.filter_cons_of_pos (by simpa using hv), List.map_cons] at hvm
      cases ps with
      | nil => exact absurd hvm (by simp)
      | cons p prest =>
        rw [List.map_cons] at hvm
        have hrest : prest.map (fun s => s.visible) =
            (rest.filter (fun s => s.visible)).map (fun s => s.visible) := by
          have := congrArg (fun l => l.tail) hvm
          simpa using this
        have hm : mergeBack (s :: rest) (p :: prest) = p :: mergeBack rest prest := by
          simp [mergeBack, hv]
        rw [hm] at h
        rcases List.mem_cons.mp h with h1 | h2
        · exact Or.inl (h1 ▸ List.mem_cons_self p prest)
        · rcases mergeBack_mem_strong rest prest s2 hrest h2 with h3 | ⟨h4, h5⟩
          · exact Or.inl (List.mem_cons_of_mem p h3)
          · exact Or.inr ⟨List.mem_cons_of_mem s h4, h5⟩
    · rw [List.filter_cons_of_neg (by simpa using hv)] at hvm
      have hm : mergeBack (s :: rest) ps = s :: mergeBack rest ps := by
        simp [mergeBack, hv]
      rw [hm] at h
      rcases List.mem_cons.mp h with h1 | h2
      · refine Or.inr ⟨h1 ▸ List.mem_cons_self s rest, ?_⟩
        subst h1
        exact Bool.eq_false_iff.mpr hv
      · rcases mergeBack_mem_strong rest ps s2 hvm h2 with h3 | ⟨h4, h5⟩
        · exact Or.inl h3
        · exact Or.inr ⟨List.mem_cons_of_mem s h4, h5⟩

theorem mem_updatePercentValues (options : Options) (l : List (Series α)) (s2 : Series α)
    (h : s2 ∈ updatePercentValues options l) :
    ∃ s ∈ l, s2 = s ∨ s2 = percentSeries (buildSums l) s := by
  rw [updatePercentValues] at h
  split at h
  · obtain ⟨s, hs, rfl⟩ := List.mem_map.mp h
    exact ⟨s, hs, Or.inr rfl⟩
  · exact ⟨s2, h, Or.inl rfl⟩

theorem stackFrom_mem :
    ∀ (py : List YVal) (l : List (Series α)) (s2 : Series α),
      s2 ∈ stackFrom py l → ∃ s ∈ l, s2.x = s.x ∧ s2.errorY = s.errorY ∧
        s2.y.length = s.y.length
  | _, [], s2, h => absurd h (List.not_mem_nil s2)
  | py, s :: l, s2, h => by
    rcases List.mem_cons.mp h with h1 | h2
    · subst h1
      exact ⟨s, List.mem_cons_self s l, rfl, rfl, addYs_length py s.y⟩
    · obtain ⟨t, ht, hprops⟩ := stackFrom_mem _ l s2 h2
      exact ⟨t, List.mem_cons_of_mem s ht, hprops⟩

theorem stackSeries_mem (l : List (Series α)) (s2 : Series α)
    (h : s2 ∈ stackSeries l) :
    ∃ s ∈ l, s2.x = s.x ∧ s2.errorY = s.errorY ∧ s2.y.length = s.y.length := by
  cases l with
  | nil => exact absurd h (List.not_mem_nil s2)
  | cons s l =>
    rcases List.mem_cons.mp h with h1 | h2
    · subst h1
      exact ⟨s2, List.mem_cons_self s2 l, rfl, rfl, rfl⟩
    · obtain ⟨t, ht, hprops⟩ := stackFrom_mem s.y l s2 h2
      exact ⟨t, List.mem_cons_of_mem s ht, hprops⟩

/-! ### Array-length facts for claim C7 -/

theorem lensEq_of_wellFormed (s : Series α) (h : wellFormed s) : lensEq s := by
  obtain ⟨h1, h2, h3, h4, _⟩ := h
  exact ⟨by omega, by omega, by omega⟩

theorem lensEq_mem_updateSeriesText (env : Env α) (options : Options)
    (l2 : List (Series α))
    (hpre : ∀ s ∈ l2, s.x.length = s.y.length ∧ s.y.length = s.errorY.length ∧
      (options.globalSeriesType = "pie" → s.labels.length = s.x.length)) :
    ∀ s2 ∈ updateSeriesText env options l2, lensEq s2 := by
  intro s2 h2
  obtain ⟨s, hs, rfl⟩ := List.mem_map.mp h2
  obtain ⟨e1, e2, e3⟩ := hpre s hs
  refine ⟨by simpa using e1, by simpa using e2, ?_⟩
  rw [show (updateSeriesTextS env options s).errorY = s.errorY from rfl,
    updateSeriesTextS_text, List.length_map]
  split
  · next hpie =>
    have := e3 hpie
    omega
  · omega

theorem pre_lens_percent (options : Options) (vs : List (Series α))
    (hwf : ∀ s ∈ vs, wellFormed s) :
    ∀ s2 ∈ updatePercentValues options vs,
      s2.x.length = s2.y.length ∧ s2.y.length = s2.errorY.length := by
  intro s2 h2
  obtain ⟨s, hs, hcase⟩ := mem_updatePercentValues options vs s2 h2
  obtain ⟨w1, w2, w3, _, _⟩ := hwf s hs
  rcases hcase with rfl | rfl
  · constructor <;> omega
  · simp only [percentSeries_x, percentSeries_y, percentSeries_errorY, List.length_map]
    constructor <;> omega

theorem lens_unified_mem (options : Options) (d : Option YVal) (l2 : List (Series α)) :
    ∀ s2 ∈ updateUnifiedXAxisValues options d l2,
      s2.x.length = s2.y.length ∧ s2.y.length = s2.errorY.length := by
  intro s2 h2
  simp only [updateUnifiedXAxisValues] at h2
  obtain ⟨s, _, rfl⟩ := List.mem_map.mp h2
  simp [unifiedYCells, unifiedErrCells]

theorem lens_stack_mem (l2 : List (Series α))
    (h : ∀ t ∈ l2, t.x.length = t.y.length ∧ t.y.length = t.errorY.length) :
    ∀ s2 ∈ stackSeries l2,
      s2.x.length = s2.y.length ∧ s2.y.length = s2.errorY.length := by
  intro s2 h2
  obtain ⟨t, ht, hx, he, hy⟩ := stackSeries_mem l2 s2 h2
  obtain ⟨f1, f2⟩ := h t ht
  rw [hx, he, hy]
  exact ⟨f1, f2⟩

theorem lensEq_updateLineAreaData (env : Env α) (options : Options)
    (vs : List (Series α)) (hwf : ∀ s ∈ vs, wellFormed s)
    (hnp : options.globalSeriesType ≠ "pie") :
    ∀ s2 ∈ updateLineAreaData env options vs, lensEq s2 := by
  intro s2 hmem
  simp only [updateLineAreaData] at hmem
  refine lensEq_mem_updateSeriesText env options _ ?_ s2 hmem
  intro t ht
  split at ht
  · have := lens_stack_mem _ (lens_unified_mem options _ _) t ht
    exact ⟨this.1, this.2, fun hp => absurd hp hnp⟩
  · split at ht
    · have := lens_unified_mem options _ _ t ht
      exact ⟨this.1, this.2, fun hp => absurd hp hnp⟩
    · have := pre_lens_percent options vs hwf t ht
      exact ⟨this.1, this.2, fun hp => absurd hp hnp⟩

theorem lensEq_updateDefaultData (env : Env α) (options : Options)
    (vs : List (Series α)) (hwf : ∀ s ∈ vs, wellFormed s)
    (hnp : options.globalSeriesType ≠ "pie") :
    ∀ s2 ∈ updateDefaultData env options vs, lensEq s2 := by
  intro s2 hmem
  simp only [updateDefaultData] at hmem
  refine lensEq_mem_updateSeriesText env options _ ?_ s2 hmem
  intro t ht
  split at ht
  · have := lens_unified_mem options _ _ t ht
    exact ⟨this.1, this.2, fun hp => absurd hp hnp⟩
  · have := pre_lens_percent options vs hwf t ht
    exact ⟨this.1, this.2, fun hp => absurd hp hnp⟩

theorem lensEq_updatePieData (env : Env α) (options : Options)
    (vs : List (Series α)) (hwf : ∀ s ∈ vs, wellFormed s) :
    ∀ s2 ∈ updatePieData env options vs, lensEq s2 := by
  intro s2 hmem
  refine lensEq_mem_updateSeriesText env options _ ?_ s2 hmem
  intro t ht
  obtain ⟨w1, w2, w3, _, w5⟩ := hwf t ht
  exact ⟨by omega, by omega, fun _ => by omega⟩

/-! ### Idempotence building blocks -/

theorem updateSeriesTextS_idem (env : Env α) (options : Options) (s : Series α) :
    updateSeriesTextS env options (updateSeriesTextS env options s) =
      updateSeriesTextS env options s := rfl

theorem updateSeriesText_idem (env : Env α) (options : Options) (l : List (Series α)) :
    updateSeriesText env options (updateSeriesText env options l) =
      updateSeriesText env options l := by
  simp only [updateSeriesText, List.map_map]
  exact List.map_congr_left (fun s _ => updateSeriesTextS_idem env options s)

theorem seriesPairs_percentSeries (m : List (α × ℚ)) (s : Series α) :
    seriesPairs (percentSeries m s) = seriesPairs s := by
  rw [seriesPairs, seriesPairs, percentSeries_sourceData, List.map_map]
  rfl

theorem seriesKeys_percentSeries (m : List (α × ℚ)) (s : Series α) :
    seriesKeys (percentSeries m s) = seriesKeys s := by
  rw [seriesKeys, seriesKeys, percentSeries_sourceData, List.map_map]
  rfl

theorem map_seriesPairs_congr (f : Series α → Series α)
    (hf : ∀ s, seriesPairs (f s) = seriesPairs s) (l : List (Series α)) :
    (l.map f).map seriesPairs = l.map seriesPairs := by
  rw [List.map_map]
  exact List.map_congr_left (fun s _ => hf s)

theorem map_seriesKeys_congr (f : Series α → Series α)
    (hf : ∀ s, seriesKeys (f s) = seriesKeys s) (l : List (Series α)) :
    (l.map f).map seriesKeys = l.map seriesKeys := by
  rw [List.map_map]
  exact List.map_congr_left (fun s _ => hf s)

theorem buildSums_map_congr (f : Series α → Series α)
    (hf : ∀ s, seriesPairs (f s) = seriesPairs s) (l : List (Series α)) :
    buildSums (l.map f) = buildSums l :=
  buildSums_congr _ _ (map_seriesPairs_congr f hf l)

/-- A series whose `sourceData` already went through the percent pass (and
whose `y` array is the percent array) is a fixed point of the pass. -/
theorem percentSeries_stable (m : List (α × ℚ)) (u : Series α) (sd0 : List (Point α))
    (hsd : u.sourceData = sd0.map (percentPoint m))
    (hy : u.y = u.sourceData.map (fun p => YVal.ofOptJsNum p.yPercent)) :
    percentSeries m u = u := by
  have h1 : u.sourceData.map (percentPoint m) = u.sourceData := by
    rw [hsd, List.map_map]
    exact List.map_congr_left (fun p _ => percentPoint_idem m p)
  simp only [percentSeries]
  rw [h1, ← hy]

/-- A series whose `x`/`y`/`errorY` already match the rebuilt arrays of
the unification pass is a fixed point of the pass. -/
theorem unified_stable (options : Options) (ux : List α) (dY : YVal) (u : Series α)
    (hx : u.x = ux)
    (hy : u.y = unifiedYCells options dY u.sourceData ux)
    (he : u.errorY = unifiedErrCells u.sourceData ux) :
    unifiedSeries options ux dY u = u := by
  simp only [unifiedSeries]
  rw [← hy, ← he, ← hx]

/-- A series already in the shape left by percent-then-unify is a fixed
point of that composite. -/
theorem unified_percent_stable (options : Options) (m : List (α × ℚ)) (ux : List α)
    (dY : YVal) (u : Series α) (sd0 : List (Point α))
    (hsd : u.sourceData = sd0.map (percentPoint m))
    (hx : u.x = ux)
    (hy : u.y = unifiedYCells options dY u.sourceData ux)
    (he : u.errorY = unifiedErrCells u.sourceData ux) :
    unifiedSeries options ux dY (percentSeries m u) = u := by
  have h1 : u.sourceData.map (percentPoint m) = u.sourceData := by
    rw [hsd, List.map_map]
    exact List.map_congr_left (fun p _ => percentPoint_idem m p)
  simp only [percentSeries, unifiedSeries]
  rw [h1, ← hy, ← he, ← hx]

theorem applyYs_map_comm (f : Series α → Series α)
    (hf : ∀ (s : Series α) (ys : List YVal), f { s with y := ys } = { f s with y := ys }) :
    ∀ (l : List (Series α)) (yss : List (List YVal)),
      (applyYs l yss).map f = applyYs (l.map f) yss
  | [], _ => rfl
  | s :: l, [] => by
    simp only [applyYs, List.map_cons]
    rw [applyYs_map_comm f hf l []]
  | s :: l, ys :: rest => by
    simp only [applyYs, List.map_cons]
    rw [hf, applyYs_map_comm f hf l rest]

/-- Idempotence of the text-after-percent composite (the non-unified
line/area and default paths, and the stacking-on default path). -/
theorem text_percent_idem (env : Env α) (options : Options) (l : List (Series α)) :
    updateSeriesText env options (updatePercentValues options
      (updateSeriesText env options (updatePercentValues options l))) =
      updateSeriesText env options (updatePercentValues options l) := by
  by_cases hpv : options.percentValues = true
  · have hrun1 : updateSeriesText env options (updatePercentValues options l) =
        l.map (fun s => updateSeriesTextS env options
          (percentSeries (buildSums l) s)) := by
      rw [updatePercentValues, if_pos hpv, updateSeriesText, List.map_map]
      rfl
    rw [hrun1]
    have hm2 : buildSums (l.map (fun s => updateSeriesTextS env options
        (percentSeries (buildSums l) s))) = buildSums l :=
      buildSums_map_congr
        (fun s => updateSeriesTextS env options (percentSeries (buildSums l) s))
        (fun s => seriesPairs_percentSeries (buildSums l) s) l
    rw [updatePercentValues, if_pos hpv, hm2, updateSeriesText, List.map_map,
      List.map_map]
    apply List.map_congr_left
    intro s _
    show updateSeriesTextS env options (percentSeries (buildSums l)
        (updateSeriesTextS env options (percentSeries (buildSums l) s))) =
      updateSeriesTextS env options (percentSeries (buildSums l) s)
    rw [percentSeries_stable (buildSums l) _ s.sourceData rfl rfl]
    rfl
  · have hb : options.percentValues = false := by
      cases h2 : options.percentValues
      · rfl
      · exact absurd h2 hpv
    have hPc : ∀ l2 : List (Series α), updatePercentValues options l2 = l2 := by
      intro l2
      rw [updatePercentValues, hb]
      rfl
    rw [hPc, hPc, updateSeriesText_idem]

/-- Idempotence of the text-after-unify-after-percent composite (the
category-sorted non-stacking paths). -/
theorem text_unified_percent_idem (env : Env α) (options : Options) (d : Option YVal)
    (l : List (Series α)) :
    updateSeriesText env options (updateUnifiedXAxisValues options d
      (updatePercentValues options (updateSeriesText env options
        (updateUnifiedXAxisValues options d (updatePercentValues options l))))) =
      updateSeriesText env options (updateUnifiedXAxisValues options d
        (updatePercentValues options l)) := by
  by_cases hpv : options.percentValues = true
  · have hrun1 : updateSeriesText env options (updateUnifiedXAxisValues options d
        (updatePercentValues options l)) =
        l.map (fun s => updateSeriesTextS env options (unifiedSeries options
          (getUnifiedXAxisValues (l.map (percentSeries (buildSums l))) options.sortX)
          (d.getD YVal.null) (percentSeries (buildSums l) s))) := by
      rw [updatePercentValues, if_pos hpv]
      simp only [updateUnifiedXAxisValues]
      rw [updateSeriesText, List.map_map, List.map_map]
      rfl
    rw [hrun1]
    have hm2 : buildSums (l.map (fun s => updateSeriesTextS env options
        (unifiedSeries options
          (getUnifiedXAxisValues (l.map (percentSeries (buildSums l))) options.sortX)
          (d.getD YVal.null) (percentSeries (buildSums l) s)))) = buildSums l :=
      buildSums_map_congr
        (fun s => updateSeriesTextS env options (unifiedSeries options
          (getUnifiedXAxisValues (l.map (percentSeries (buildSums l))) options.sortX)
          (d.getD YVal.null) (percentSeries (buildSums l) s)))
        (fun s => seriesPairs_percentSeries (buildSums l) s) l
    rw [updatePercentValues, if_pos hpv, hm2]
    have hkeys1 : ∀ (l2 : List (Series α)),
        (l2.map (percentSeries (buildSums l))).map seriesKeys = l2.map seriesKeys :=
      fun l2 => map_seriesKeys_congr _ (fun s => seriesKeys_percentSeries (buildSums l) s) l2
    have hux2 : getUnifiedXAxisValues ((l.map (fun s => updateSeriesTextS env options
        (unifiedSeries options
          (getUnifiedXAxisValues (l.map (percentSeries (buildSums l))) options.sortX)
          (d.getD YVal.null) (percentSeries (buildSums l) s)))).map
            (percentSeries (buildSums l))) options.sortX =
        getUnifiedXAxisValues (l.map (percentSeries (buildSums l))) options.sortX := by
      apply getUnified_congr
      refine ((hkeys1 _).trans ?_).trans (hkeys1 l).symm
      exact map_seriesKeys_congr
        (fun s => updateSeriesTextS env options (unifiedSeries options
          (getUnifiedXAxisValues (l.map (percentSeries (buildSums l))) options.sortX)
          (d.getD YVal.null) (percentSeries (buildSums l) s)))
        (fun s => seriesKeys_percentSeries (buildSums l) s) l
    simp only [updateUnifiedXAxisValues]
    rw [hux2, updateSeriesText, List.map_map, List.map_map, List.map_map]
    apply List.map_congr_left
    intro s _
    show updateSeriesTextS env options (unifiedSeries options
        (getUnifiedXAxisValues (l.map (percentSeries (buildSums l))) options.sortX)
        (d.getD YVal.null) (percentSeries (buildSums l)
          (updateSeriesTextS env options (unifiedSeries options
            (getUnifiedXAxisValues (l.map (percentSeries (buildSums l))) options.sortX)
            (d.getD YVal.null) (percentSeries (buildSums l) s))))) = _
    rw [unified_percent_stable options (buildSums l)
      (getUnifiedXAxisValues (l.map (percentSeries (buildSums l))) options.sortX)
      (d.getD YVal.null) _ s.sourceData rfl rfl rfl rfl]
    rfl
  · have hb : options.percentValues = false := by
      cases h2 : options.percentValues
      · rfl
      · exact absurd h2 hpv
    have hPc : ∀ l2 : List (Series α), updatePercentValues options l2 = l2 := by
      intro l2
      rw [updatePercentValues, hb]
      rfl
    rw [hPc, hPc]
    have hrun1 : updateSeriesText env options
        (updateUnifiedXAxisValues options d l) =
        l.map (fun s => updateSeriesTextS env options (unifiedSeries options
          (getUnifiedXAxisValues l options.sortX) (d.getD YVal.null) s)) := by
      simp only [updateUnifiedXAxisValues]
      rw [updateSeriesText, List.map_map]
      rfl
    rw [hrun1]
    have hux2 : getUnifiedXAxisValues (l.map (fun s => updateSeriesTextS env options
        (unifiedSeries options (getUnifiedXAxisValues l options.sortX)
          (d.getD YVal.null) s))) options.sortX =
        getUnifiedXAxisValues l options.sortX := by
      apply getUnified_congr
      exact map_seriesKeys_congr
        (fun s => updateSeriesTextS env options (unifiedSeries options
          (getUnifiedXAxisValues l options.sortX) (d.getD YVal.null) s))
        (fun s => rfl) l
    simp only [updateUnifiedXAxisValues]
    rw [hux2, updateSeriesText, List.map_map, List.map_map]
    apply List.map_congr_left
    intro s _
    show updateSeriesTextS env options (unifiedSeries options
        (getUnifiedXAxisValues l options.sortX) (d.getD YVal.null)
        (updateSeriesTextS env options (unifiedSeries options
          (getUnifiedXAxisValues l options.sortX) (d.getD YVal.null) s))) = _
    rw [unified_stable options (getUnifiedXAxisValues l options.sortX)
      (d.getD YVal.null) _ rfl rfl rfl]
    rfl

/-- Idempotence of the text-after-stack-after-unify-after-percent
composite (the stacked line/area path). -/
theorem text_stack_idem (env : Env α) (options : Options) (l : List (Series α)) :
    updateSeriesText env options (stackSeries (updateUnifiedXAxisValues options
      (some (.num 0)) (updatePercentValues options (updateSeriesText env options
        (stackSeries (updateUnifiedXAxisValues options (some (.num 0))
          (updatePercentValues options l))))))) =
      updateSeriesText env options (stackSeries (updateUnifiedXAxisValues options
        (some (.num 0)) (updatePercentValues options l))) := by
  by_cases hpv : options.percentValues = true
  · have hrun1 : updateSeriesText env options (stackSeries
        (updateUnifiedXAxisValues options (some (.num 0))
          (updatePercentValues options l))) =
        applyYs (l.map (fun s => updateSeriesTextS env options (unifiedSeries options
            (getUnifiedXAxisValues (l.map (percentSeries (buildSums l))) options.sortX)
            ((some (YVal.num 0)).getD YVal.null) (percentSeries (buildSums l) s))))
          (stackYs ((l.map (fun s => unifiedSeries options
            (getUnifiedXAxisValues (l.map (percentSeries (buildSums l))) options.sortX)
            ((some (YVal.num 0)).getD YVal.null) (percentSeries (buildSums l) s))).map
              (fun s => s.y))) := by
      rw [updatePercentValues, if_pos hpv]
      simp only [updateUnifiedXAxisValues]
      rw [List.map_map, stackSeries_eq, updateSeriesText,
        applyYs_map_comm (updateSeriesTextS env options) (fun s ys => rfl),
        List.map_map]
      rfl
    rw [hrun1]
    have hm2 : buildSums (applyYs (l.map (fun s => updateSeriesTextS env options
        (unifiedSeries options
          (getUnifiedXAxisValues (l.map (percentSeries (buildSums l))) options.sortX)
          ((some (YVal.num 0)).getD YVal.null) (percentSeries (buildSums l) s))))
        (stackYs ((l.map (fun s => unifiedSeries options
          (getUnifiedXAxisValues (l.map (percentSeries (buildSums l))) options.sortX)
          ((some (YVal.num 0)).getD YVal.null) (percentSeries (buildSums l) s))).map
            (fun s => s.y)))) = buildSums l := by
      apply buildSums_congr
      refine (applyYs_map_proj seriesPairs (fun s ys => rfl) _ _).trans ?_
      exact map_seriesPairs_congr
        (fun s => updateSeriesTextS env options (unifiedSeries options
          (getUnifiedXAxisValues (l.map (percentSeries (buildSums l))) options.sortX)
          ((some (YVal.num 0)).getD YVal.null) (percentSeries (buildSums l) s)))
        (fun s => seriesPairs_percentSeries (buildSums l) s) l
    rw [updatePercentValues, if_pos hpv, hm2]
    have hPcR1 : (applyYs (l.map (fun s => updateSeriesTextS env options
        (unifiedSeries options
          (getUnifiedXAxisValues (l.map (percentSeries (buildSums l))) options.sortX)
          ((some (YVal.num 0)).getD YVal.null) (percentSeries (buildSums l) s))))
        (stackYs ((l.map (fun s => unifiedSeries options
          (getUnifiedXAxisValues (l.map (percentSeries (buildSums l))) options.sortX)
          ((some (YVal.num 0)).getD YVal.null) (percentSeries (buildSums l) s))).map
            (fun s => s.y)))).map (percentSeries (buildSums l)) =
        l.map (fun s => percentSeries (buildSums l) (updateSeriesTextS env options
          (unifiedSeries options
            (getUnifiedXAxisValues (l.map (percentSeries (buildSums l))) options.sortX)
            ((some (YVal.num 0)).getD YVal.null) (percentSeries (buildSums l) s)))) := by
      refine (applyYs_map_proj (percentSeries (buildSums l)) (fun s ys => rfl) _ _).trans ?_
      rw [List.map_map]
      rfl
    rw [hPcR1]
    have hUX2 : getUnifiedXAxisValues (l.map (fun s => percentSeries (buildSums l)
        (updateSeriesTextS env options (unifiedSeries options
          (getUnifiedXAxisValues (l.map (percentSeries (buildSums l))) options.sortX)
          ((some (YVal.num 0)).getD YVal.null) (percentSeries (buildSums l) s)))))
          options.sortX =
        getUnifiedXAxisValues (l.map (percentSeries (buildSums l))) options.sortX := by
      apply getUnified_congr
      have h1 := map_seriesKeys_congr
        (fun s => percentSeries (buildSums l) (updateSeriesTextS env options
          (unifiedSeries options
            (getUnifiedXAxisValues (l.map (percentSeries (buildSums l))) options.sortX)
            ((some (YVal.num 0)).getD YVal.null) (percentSeries (buildSums l) s))))
        (fun s => (seriesKeys_percentSeries (buildSums l) _).trans
          (seriesKeys_percentSeries (buildSums l) s)) l
      have h2 := map_seriesKeys_congr (percentSeries (buildSums l))
        (fun s => seriesKeys_percentSeries (buildSums l) s) l
      exact h1.trans h2.symm
    simp only [updateUnifiedXAxisValues]
    rw [hUX2]
    rw [show (l.map (fun s => percentSeries (buildSums l) (updateSeriesTextS env options
        (unifiedSeries options
          (getUnifiedXAxisValues (l.map (percentSeries (buildSums l))) options.sortX)
          ((some (YVal.num 0)).getD YVal.null) (percentSeries (buildSums l) s))))).map
        (unifiedSeries options
          (getUnifiedXAxisValues (l.map (percentSeries (buildSums l))) options.sortX)
          ((some (YVal.num 0)).getD YVal.null)) =
      l.map (fun s => updateSeriesTextS env options (unifiedSeries options
        (getUnifiedXAxisValues (l.map (percentSeries (buildSums l))) options.sortX)
        ((some (YVal.num 0)).getD YVal.null) (percentSeries (buildSums l) s)))
      from by
        rw [List.map_map]
        exact List.map_congr_left (fun s _ => unified_percent_stable options
          (buildSums l)
          (getUnifiedXAxisValues (l.map (percentSeries (buildSums l))) options.sortX)
          ((some (YVal.num 0)).getD YVal.null) _ s.sourceData rfl rfl rfl rfl)]
    rw [stackSeries_eq]
    rw [show (l.map (fun s => updateSeriesTextS env options (unifiedSeries options
        (getUnifiedXAxisValues (l.map (percentSeries (buildSums l))) options.sortX)
        ((some (YVal.num 0)).getD YVal.null) (percentSeries (buildSums l) s)))).map
          (fun s => s.y) =
        (l.map (fun s => unifiedSeries options
          (getUnifiedXAxisValues (l.map (percentSeries (buildSums l))) options.sortX)
          ((some (YVal.num 0)).getD YVal.null) (percentSeries (buildSums l) s))).map
            (fun s => s.y)
      from by
        rw [List.map_map, List.map_map]
        rfl]
    rw [updateSeriesText,
      applyYs_map_comm (updateSeriesTextS env options) (fun s ys => rfl), List.map_map]
    rfl
  · have hb : options.percentValues = false := by
      cases h2 : options.percentValues
      · rfl
      · exact absurd h2 hpv
    have hPc : ∀ l2 : List (Series α), updatePercentValues options l2 = l2 := by
      intro l2
      rw [updatePercentValues, hb]
      rfl
    rw [hPc, hPc]
    have hrun1 : updateSeriesText env options (stackSeries
        (updateUnifiedXAxisValues options (some (.num 0)) l)) =
        applyYs (l.map (fun s => updateSeriesTextS env options (unifiedSeries options
            (getUnifiedXAxisValues l options.sortX)
            ((some (YVal.num 0)).getD YVal.null) s)))
          (stackYs ((l.map (fun s => unifiedSeries options
            (getUnifiedXAxisValues l options.sortX)
            ((some (YVal.num 0)).getD YVal.null) s)).map (fun s => s.y))) := by
      simp only [updateUnifiedXAxisValues]
      rw [stackSeries_eq, updateSeriesText,
        applyYs_map_comm (updateSeriesTextS env options) (fun s ys => rfl),
        List.map_map]
      rfl
    rw [hrun1]
    have hUX2 : getUnifiedXAxisValues (applyYs
        (l.map (fun s => updateSeriesTextS env options (unifiedSeries options
          (getUnifiedXAxisValues l options.sortX)
          ((some (YVal.num 0)).getD YVal.null) s)))
        (stackYs ((l.map (fun s => unifiedSeries options
          (getUnifiedXAxisValues l options.sortX)
          ((some (YVal.num 0)).getD YVal.null) s)).map (fun s => s.y))))
          options.sortX = getUnifiedXAxisValues l options.sortX := by
      apply getUnified_congr
      refine (applyYs_map_proj seriesKeys (fun s ys => rfl) _ _).trans ?_
      exact map_seriesKeys_congr
        (fun s => updateSeriesTextS env options (unifiedSeries options
          (getUnifiedXAxisValues l options.sortX)
          ((some (YVal.num 0)).getD YVal.null) s))
        (fun s => rfl) l
    simp only [updateUnifiedXAxisValues]
    rw [hUX2]
    rw [show (applyYs (l.map (fun s => updateSeriesTextS env options
        (unifiedSeries options (getUnifiedXAxisValues l options.sortX)
          ((some (YVal.num 0)).getD YVal.null) s)))
        (stackYs ((l.map (fun s => unifiedSeries options
          (getUnifiedXAxisValues l options.sortX)
          ((some (YVal.num 0)).getD YVal.null) s)).map (fun s => s.y)))).map
            (unifiedSeries options (getUnifiedXAxisValues l options.sortX)
              ((some (YVal.num 0)).getD YVal.null)) =
        l.map (fun s => updateSeriesTextS env options (unifiedSeries options
          (getUnifiedXAxisValues l options.sortX)
          ((some (YVal.num 0)).getD YVal.null) s))
      from by
        refine (applyYs_map_proj (unifiedSeries options
          (getUnifiedXAxisValues l options.sortX)
          ((some (YVal.num 0)).getD YVal.null)) (fun s ys => rfl) _ _).trans ?_
        rw [List.map_map]
        exact List.map_congr_left (fun s _ => unified_stable options
          (getUnifiedXAxisValues l options.sortX)
          ((some (YVal.num 0)).getD YVal.null) _ rfl rfl rfl)]
    rw [stackSeries_eq]
    rw [show (l.map (fun s => updateSeriesTextS env options (unifiedSeries options
        (getUnifiedXAxisValues l options.sortX)
        ((some (YVal.num 0)).getD YVal.null) s))).map (fun s => s.y) =
        (l.map (fun s => unifiedSeries options (getUnifiedXAxisValues l options.sortX)
          ((some (YVal.num 0)).getD YVal.null) s)).map (fun s => s.y)
      from by
        rw [List.map_map, List.map_map]
        rfl]
    rw [updateSeriesText,
      applyYs_map_comm (updateSeriesTextS env options) (fun s ys => rfl), List.map_map]
    rfl

theorem updateLineAreaData_idem (env : Env α) (options : Options) (l : List (Series α)) :
    updateLineAreaData env options (updateLineAreaData env options l) =
      updateLineAreaData env options l := by
  by_cases hst : options.stacking = true
  · have hgen : ∀ l2 : List (Series α), updateLineAreaData env options l2 =
        updateSeriesText env options (stackSeries (updateUnifiedXAxisValues options
          (some (.num 0)) (updatePercentValues options l2))) := by
      intro l2
      simp [updateLineAreaData, hst]
    rw [hgen, hgen]
    exact text_stack_idem env options l
  · by_cases hu : options.sortX = true ∧ options.xAxisType = some "category" ∧
        options.globalSeriesType ≠ "box"
    · have hgen : ∀ l2 : List (Series α), updateLineAreaData env options l2 =
          updateSeriesText env options (updateUnifiedXAxisValues options none
            (updatePercentValues options l2)) := by
        intro l2
        simp [updateLineAreaData, hst, hu]
      rw [hgen, hgen]
      exact text_unified_percent_idem env options none l
    · have hgen : ∀ l2 : List (Series α), updateLineAreaData env options l2 =
          updateSeriesText env options (updatePercentValues options l2) := by
        intro l2
        simp [updateLineAreaData, hst, hu]
      rw [hgen, hgen]
      exact text_percent_idem env options l

theorem updateDefaultData_idem (env : Env α) (options : Options) (l : List (Series α)) :
    updateDefaultData env options (updateDefaultData env options l) =
      updateDefaultData env options l := by
  by_cases hu : options.stacking = false ∧ options.sortX = true ∧
      options.xAxisType = some "category" ∧ options.globalSeriesType ≠ "box"
  · have hgen : ∀ l2 : List (Series α), updateDefaultData env options l2 =
        updateSeriesText env options (updateUnifiedXAxisValues options none
          (updatePercentValues options l2)) := by
      intro l2
      simp [updateDefaultData, hu]
    rw [hgen, hgen]
    exact text_unified_percent_idem env options none l
  · have hgen : ∀ l2 : List (Series α), updateDefaultData env options l2 =
        updateSeriesText env options (updatePercentValues options l2) := by
      intro l2
      simp [updateDefaultData, hu]
    rw [hgen, hgen]
    exact text_percent_idem env options l

/-- The common argument for `updateData` idempotence once the dispatch
branch is fixed. -/
theorem updateData_idem_aux (env : Env α) (options : Options) (sl : List (Series α))
    (F : List (Series α) → List (Series α))
    (hvisF : ∀ l : List (Series α),
      (F l).map (fun s => s.visible) = l.map (fun s => s.visible))
    (hidem : ∀ l : List (Series α), F (F l) = F l)
    (hdisp : ∀ l2 : List (Series α), (l2.filter (fun s => s.visible)).isEmpty = false →
      updateData env options l2 = mergeBack l2 (F (l2.filter (fun s => s.visible))))
    (hef : (sl.filter (fun s => s.visible)).isEmpty = false) :
    updateData env options (updateData env options sl) = updateData env options sl := by
  have h1 : updateData env options sl =
      mergeBack sl (F (sl.filter (fun s => s.visible))) := hdisp sl hef
  have hvm : (F (sl.filter (fun s => s.visible))).map (fun s => s.visible) =
      (sl.filter (fun s => s.visible)).map (fun s => s.visible) := hvisF _
  have hfo : (updateData env options sl).filter (fun s => s.visible) =
      F (sl.filter (fun s => s.visible)) := by
    rw [h1]
    exact mergeBack_filter sl _ hvm
  have hef2 : ((updateData env options sl).filter (fun s => s.visible)).isEmpty =
      false := by
    rw [hfo]
    have hlen : (F (sl.filter (fun s => s.visible))).length =
        (sl.filter (fun s => s.visible)).length := by
      have := congrArg List.length hvm
      simpa using this
    cases h2 : (F (sl.filter (fun s => s.visible))).isEmpty
    · rfl
    · rw [List.isEmpty_iff] at h2
      rw [h2] at hlen
      have h3 : sl.filter (fun s => s.visible) = [] :=
        List.length_eq_zero.mp hlen.symm
      rw [h3] at hef
      exact absurd hef (by simp)
  have h2 : updateData env options (updateData env options sl) =
      mergeBack (updateData env options sl)
        (F ((updateData env options sl).filter (fun s => s.visible))) :=
    hdisp _ hef2
  rw [h2, hfo, hidem, h1]
  exact mergeBack_idem sl _ hvm

/-! ### The stacking loop, indexed -/

theorem updatePercentValues_length (options : Options) (l : List (Series α)) :
    (updatePercentValues options l).length = l.length := by
  rw [updatePercentValues]
  split
  · rw [List.length_map]
  · rfl

theorem stackFrom_getD [Inhabited α] :
    ∀ (l : List (Series α)) (py : List YVal) (n i m : Nat),
      py.length = m → (∀ s ∈ l, s.y.length = m) → n < l.length → i < m →
      ((stackFrom py l).getD n default).y.getD i .undef =
        ((l.take (n + 1)).map (fun s => s.y.getD i .undef)).foldl jsAdd
          (py.getD i .undef)
  | [], _, n, _, _, _, _, hn, _ => absurd hn (by simp)
  | s :: l, py, 0, i, m, hpy, hl, _, hi => by
    have hsy : s.y.length = m := hl s (List.mem_cons_self s l)
    show (addYs py s.y).getD i .undef = _
    rw [addYs_getD .undef py s.y i (by omega)]
    rfl
  | s :: l, py, n + 1, i, m, hpy, hl, hn, hi => by
    have hsy : s.y.length = m := hl s (List.mem_cons_self s l)
    show ((stackFrom (addYs py s.y) l).getD n default).y.getD i .undef = _
    rw [stackFrom_getD l (addYs py s.y) n i m (by rw [addYs_length]; omega)
      (fun t ht => hl t (List.mem_cons_of_mem s ht)) (by simpa using hn) hi]
    rw [show ((s :: l).take (n + 2)).map (fun s => s.y.getD i .undef) =
        (s.y.getD i .undef) :: (l.take (n + 1)).map (fun s => s.y.getD i .undef)
      from rfl]
    rw [List.foldl_cons, addYs_getD .undef py s.y i (by omega)]

theorem stackSeries_getD [Inhabited α] :
    ∀ (l : List (Series α)) (n i m : Nat),
      (∀ s ∈ l, s.y.length = m) → n < l.length → i < m →
      ((stackSeries l).getD n default).y.getD i .undef =
        jsSum1 ((l.take (n + 1)).map (fun s => s.y.getD i .undef))
  | [], n, _, _, _, hn, _ => absurd hn (by simp)
  | _ :: _, 0, _, _, _, _, _ => rfl
  | s :: l, n + 1, i, m, h, hn, hi => by
    show ((stackFrom s.y l).getD n default).y.getD i .undef = _
    rw [stackFrom_getD l s.y n i m (h s (List.mem_cons_self s l))
      (fun t ht => h t (List.mem_cons_of_mem s ht)) (by simpa using hn) hi]
    rfl

/-!
### The claims
-/

/-- C1 (amended): when percent mode is enabled, for every x-value whose
sum of absolute y-values across the (visible) series list is nonzero *and
whose y-values at that x are all nonnegative*, the `yPercent` values
computed by `updatePercentValues` sum to exactly 100 over all series that
have a point at that x. As frozen the claim is false for arbitrary input:
the denominator uses `Math.abs(item.y)` while the numerator is signed, so
with mixed signs the sum is `100·(Σy)/(Σ|y|) ≠ 100` (see the
counterexample). -/
theorem claim1_percent_sum (options : Options) (sl : List (Series α)) (x : α)
    (hpv : options.percentValues = true)
    (hnz : sumAbsAt sl x ≠ 0)
    (hpos : ∀ p ∈ pointsAt sl x, 0 ≤ p.y) :
    yPercentSumAt (updatePercentValues options sl) x = .num 100 := by
  have hne : pointsAt sl x ≠ [] := pointsAt_nonempty_of_sum_ne sl x hnz
  have hget : mapGet (buildSums sl) x = some (sumAbsAt sl x) :=
    buildSums_get_of_points sl x hne
  have hg : ∀ p ∈ pointsAt sl x,
      (fun p : Point α => percCalc p.y (mapGet (buildSums sl) p.x)) p =
        .num ((fun p : Point α => p.y / sumAbsAt sl x * 100) p) := by
    intro p hp
    show percCalc p.y (mapGet (buildSums sl) p.x) = _
    rw [pointsAt_x sl x p hp, hget]
    simp [percCalc, hnz]
  rw [updatePercentValues, if_pos hpv, yPercentSumAt, pointsAt_percent, List.foldl_map]
  show List.foldl
      (fun acc p => jsNumAdd acc
        ((fun p : Point α => percCalc p.y (mapGet (buildSums sl) p.x)) p))
      (JsNum.num 0) (pointsAt sl x) = JsNum.num 100
  rw [foldl_jsNumAdd_num (fun p => p.y / sumAbsAt sl x * 100) (pointsAt sl x) 0 _ hg]
  have habs : (pointsAt sl x).map (fun p => |p.y|) = (pointsAt sl x).map (fun p => p.y) :=
    List.map_congr_left (fun p hp => abs_of_nonneg (hpos p hp))
  have hsum : ((pointsAt sl x).map (fun p => p.y)).sum = sumAbsAt sl x := by
    rw [sumAbsAt, habs]
  have hmaps : (pointsAt sl x).map (fun p => p.y / sumAbsAt sl x * 100) =
      ((pointsAt sl x).map (fun p => p.y)).map (fun q => q / sumAbsAt sl x * 100) := by
    rw [List.map_map]
    rfl
  rw [hmaps, sum_div_mul, hsum, div_self hnz, one_mul, zero_add]

/-- Witness for C1: two series with y = 30 and y = 70 at x = 0; the
hypotheses hold and the percent values sum to 100. -/
theorem claim1_percent_sum_witness :
    yPercentSumAt (updatePercentValues pctOptions
      [sampleSer "A" [samplePt 0 30], sampleSer "B" [samplePt 0 70]]) 0 = .num 100 :=
  claim1_percent_sum pctOptions
    [sampleSer "A" [samplePt 0 30], sampleSer "B" [samplePt 0 70]] 0
    rfl (by norm_num [sumAbsAt, pointsAt, sampleSer, samplePt])
    (by norm_num [pointsAt, sampleSer, samplePt])

/-- Counterexample for C1 as frozen: with y = −30 and y = 70 at x = 0 the
denominator is 100 ≠ 0, yet the percent values sum to 40, not 100. -/
theorem claim1_counterexample :
    sumAbsAt [sampleSer "A" [samplePt 0 (-30)], sampleSer "B" [samplePt 0 70]] (0 : ℤ) = 100 ∧
    yPercentSumAt (updatePercentValues pctOptions
      [sampleSer "A" [samplePt 0 (-30)], sampleSer "B" [samplePt 0 70]]) 0 = .num 40 ∧
    JsNum.num 40 ≠ JsNum.num 100 := by
  refine ⟨?_, ?_, ?_⟩
  · norm_num [sumAbsAt, pointsAt, sampleSer, samplePt]
  · norm_num [yPercentSumAt, updatePercentValues, pctOptions, percentSeries, percentPoint,
      buildSums, mapSet, mapGet, mapGetD, percCalc, pointsAt, sampleSer, samplePt,
      jsNumAdd, List.find?]
  · intro h
    have h2 : (40 : ℚ) = 100 := by injection h
    norm_num at h2

/-- C9: in percent mode, at a point whose x has a zero sum of absolute
y-values, the division `item.y / sum * 100` runs unguarded and `yPercent`
becomes the non-finite value; the transform is total — both
`updatePercentValues` and the whole `updateData` still return a complete
series list, with no special case replacing the value. -/
theorem claim9_zero_sum_division [Inhabited α] (env : Env α) (options : Options)
    (sl : List (Series α)) (i j : Nat) (hi : i < sl.length)
    (hj : j < (sl.getD i default).sourceData.length)
    (hpv : options.percentValues = true)
    (hz : sumAbsAt sl ((sl.getD i default).sourceData.getD j default).x = 0) :
    (((updatePercentValues options sl).getD i default).sourceData.getD j
        default).yPercent = some .nonfinite ∧
    (updatePercentValues options sl).length = sl.length ∧
    (updateData env options sl).length = sl.length := by
  refine ⟨?_, ?_, updateData_length env options sl⟩
  · have hpmem : (sl.getD i default).sourceData.getD j default ∈
        (sl.map (fun s => s.sourceData)).flatten := by
      refine List.mem_flatten.mpr ⟨(sl.getD i default).sourceData, ?_, ?_⟩
      · exact List.mem_map.mpr ⟨sl.getD i default, listGetD_mem default sl i hi, rfl⟩
      · exact listGetD_mem default _ j hj
    have hppts : (sl.getD i default).sourceData.getD j default ∈
        pointsAt sl ((sl.getD i default).sourceData.getD j default).x := by
      rw [pointsAt]
      exact List.mem_filter.mpr ⟨hpmem, by simp⟩
    have hget : mapGet (buildSums sl) ((sl.getD i default).sourceData.getD j default).x =
        some (sumAbsAt sl ((sl.getD i default).sourceData.getD j default).x) :=
      buildSums_get_of_points sl _ (List.ne_nil_of_mem hppts)
    rw [updatePercentValues, if_pos hpv]
    rw [listGetD_map (percentSeries (buildSums sl)) default default sl i hi,
      percentSeries_sourceData,
      listGetD_map (percentPoint (buildSums sl)) default default _ j hj]
    rw [percentPoint_yPercent, hget, hz]
    simp [percCalc]
  · rw [updatePercentValues, if_pos hpv, List.length_map]

/-- Witness for C9: one series whose only point has y = 0 at x = 0, so the
sum at that x is 0; after the transform its `yPercent` is non-finite and
the returned lists are complete. -/
theorem claim9_witness :
    (((updatePercentValues pctOptions [sampleSer "A" [samplePt 0 0]]).getD 0
        default).sourceData.getD 0 default).yPercent = some .nonfinite ∧
    (updatePercentValues pctOptions [sampleSer "A" [samplePt 0 0]]).length = 1 ∧
    (updateData sampleEnv pctOptions [sampleSer "A" [samplePt 0 0]]).length = 1 :=
  claim9_zero_sum_division sampleEnv pctOptions [sampleSer "A" [samplePt 0 0]]
    0 0 (by decide) (by decide) rfl
    (by norm_num [sumAbsAt, pointsAt, sampleSer, samplePt])

/-- C5: (a) with `sortX` false, the unified x-domain is the first-seen
union of the series' point keys (series iterated in caller order, each
series' points in insertion order); (b) with `sortX` true it is
monotonically non-decreasing under the natural order; and (c)
`updateUnifiedXAxisValues` rebuilds every series' x array as exactly the
unified domain, so the rebuilt x arrays inherit (a)/(b). -/
theorem claim5_unified_domain [Inhabited α] (options : Options)
    (defaultY : Option YVal) (sl : List (Series α)) :
    getUnifiedXAxisValues sl false = firstSeenUnion (allKeys sl) ∧
    List.Sorted (fun a b => a ≤ b) (getUnifiedXAxisValues sl true) ∧
    (∀ k, k < sl.length →
      ((updateUnifiedXAxisValues options defaultY sl).getD k default).x =
        getUnifiedXAxisValues sl options.sortX) := by
  refine ⟨?_, ?_, ?_⟩
  · rw [getUnified_eq]
    rfl
  · rw [getUnified_eq]
    simp only [if_true]
    exact List.sorted_insertionSort _ _
  · intro k hk
    simp only [updateUnifiedXAxisValues]
    rw [listGetD_map (unifiedSeries options (getUnifiedXAxisValues sl options.sortX)
      (defaultY.getD .null)) default default sl k hk, unifiedSeries_x]

/-- Witness for C5: scenario B — series A has x-values 2 then 1, series B
only 1; unsorted union is first-seen `[2, 1]`, and with `sortX` on, series
B's rebuilt x array is the sorted domain `[1, 2]`. -/
theorem claim5_witness :
    getUnifiedXAxisValues
      [sampleSer "A" [samplePt 2 5, samplePt 1 6], sampleSer "B" [samplePt 1 7]] false =
      firstSeenUnion (allKeys
        [sampleSer "A" [samplePt 2 5, samplePt 1 6], sampleSer "B" [samplePt 1 7]]) ∧
    ((updateUnifiedXAxisValues sortOptions none
      [sampleSer "A" [samplePt 2 5, samplePt 1 6], sampleSer "B" [samplePt 1 7]]).getD 1
        default).x = [1, 2] := by
  have h := claim5_unified_domain sortOptions none
    [sampleSer "A" [samplePt 2 5, samplePt 1 6], sampleSer "B" [samplePt 1 7]]
  refine ⟨h.1, ?_⟩
  rw [h.2.2 1 (by decide)]
  decide

/-- C6: when axis unification runs, each series' y cell at position j of
the shared domain is the point's (percent-adjusted, if percent mode is on)
y value where the series has a point at that x, and `defaultY` otherwise;
the error cell is the point's `yError` where present and null otherwise.
The stacking call site passes `defaultY = 0` (third conjunct shows
`updateLineAreaData` with stacking calls with `some (.num 0)`; every other
call site omits the argument, which the `undefined` check turns into
null). -/
theorem claim6_unified_fill [Inhabited α] (env : Env α) (options : Options)
    (defaultY : Option YVal) (sl : List (Series α)) (k j : Nat)
    (hk : k < sl.length)
    (hj : j < (getUnifiedXAxisValues sl options.sortX).length) :
    (∀ item, srcGet (sl.getD k default).sourceData
        ((getUnifiedXAxisValues sl options.sortX).getD j default) = some item →
      ((updateUnifiedXAxisValues options defaultY sl).getD k default).y.getD j .undef =
          (if options.percentValues = true then YVal.ofOptJsNum item.yPercent
           else .num item.y) ∧
      ((updateUnifiedXAxisValues options defaultY sl).getD k default).errorY.getD j none =
          item.yError) ∧
    (srcGet (sl.getD k default).sourceData
        ((getUnifiedXAxisValues sl options.sortX).getD j default) = none →
      ((updateUnifiedXAxisValues options defaultY sl).getD k default).y.getD j .undef =
          defaultY.getD .null ∧
      ((updateUnifiedXAxisValues options defaultY sl).getD k default).errorY.getD j none =
          none) ∧
    (options.stacking = true →
      updateLineAreaData env options sl =
        updateSeriesText env options
          (stackSeries (updateUnifiedXAxisValues options (some (.num 0))
            (updatePercentValues options sl)))) := by
  have hgetS : (updateUnifiedXAxisValues options defaultY sl).getD k default =
      unifiedSeries options (getUnifiedXAxisValues sl options.sortX)
        (defaultY.getD .null) (sl.getD k default) := by
    simp only [updateUnifiedXAxisValues]
    exact listGetD_map _ default default sl k hk
  have hy : ((updateUnifiedXAxisValues options defaultY sl).getD k default).y.getD j .undef =
      (match srcGet (sl.getD k default).sourceData
          ((getUnifiedXAxisValues sl options.sortX).getD j default) with
        | some item =>
          if options.percentValues = true then YVal.ofOptJsNum item.yPercent
          else .num item.y
        | none => defaultY.getD .null) := by
    rw [hgetS, unifiedSeries_y, unifiedYCells]
    exact listGetD_map _ YVal.undef default _ j hj
  have he : ((updateUnifiedXAxisValues options defaultY sl).getD k default).errorY.getD
        j none =
      (match srcGet (sl.getD k default).sourceData
          ((getUnifiedXAxisValues sl options.sortX).getD j default) with
        | some item => item.yError
        | none => none) := by
    rw [hgetS, unifiedSeries_errorY, unifiedErrCells]
    exact listGetD_map _ none default _ j hj
  refine ⟨?_, ?_, ?_⟩
  · intro item hitem
    rw [hy, he, hitem]
    exact ⟨rfl, rfl⟩
  · intro hnone
    rw [hy, he, hnone]
    exact ⟨rfl, rfl⟩
  · intro hst
    simp [updateLineAreaData, hst]

/-- Witness for C6: with the scenario-B input (`sortX` on, domain
`[1, 2]`), series B has no point at x = 2, so its y cell there is null and
its error cell is null; series A has a point at x = 2 whose y is emitted. -/
theorem claim6_witness :
    (((updateUnifiedXAxisValues sortOptions none
        [sampleSer "A" [samplePt 2 5, samplePt 1 6], sampleSer "B" [samplePt 1 7]]).getD 1
          default).y.getD 1 .undef = .null ∧
      ((updateUnifiedXAxisValues sortOptions none
        [sampleSer "A" [samplePt 2 5, samplePt 1 6], sampleSer "B" [samplePt 1 7]]).getD 1
          default).errorY.getD 1 none = none) ∧
    ((updateUnifiedXAxisValues sortOptions none
        [sampleSer "A" [samplePt 2 5, samplePt 1 6], sampleSer "B" [samplePt 1 7]]).getD 0
          default).y.getD 1 .undef = .num 5 := by
  have hB := claim6_unified_fill sampleEnv sortOptions none
    [sampleSer "A" [samplePt 2 5, samplePt 1 6], sampleSer "B" [samplePt 1 7]]
    1 1 (by decide) (by decide)
  have hA := claim6_unified_fill sampleEnv sortOptions none
    [sampleSer "A" [samplePt 2 5, samplePt 1 6], sampleSer "B" [samplePt 1 7]]
    0 1 (by decide) (by decide)
  refine ⟨hB.2.1 (by decide), ?_⟩
  have := hA.1 (samplePt 2 5) (by decide)
  exact this.1

/-- C8 (amended): for a point of a visible series (whose raw fields do not
shadow the built-in tokens), the token bag holds already-formatted
strings: `@@x` is the axis-value-normalized raw `row.x`; `@@yError` and
`@@size` go through the number formatter; but `@@y` goes through the
number formatter only when the series' resolved type is not bubble or
scatter — for bubble/scatter it is the axis-value-normalized raw `row.y`,
so the frozen claim's "y via the configured NumberFormatter regardless of
the series' chart type" is false (see the counterexample). -/
theorem claim8_token_values (env : Env α) (options : Options) (name yaxis : String)
    (sd : List (Point α)) (x : α) (item : Point α)
    (hitem : srcGet sd x = some item)
    (hraw : ∀ kv ∈ item.rawFields,
      kv.1 ≠ "@@x" ∧ kv.1 ≠ "@@y" ∧ kv.1 ≠ "@@yError" ∧ kv.1 ≠ "@@size") :
    bagGet (buildBag env options name yaxis sd x) "@@x" =
      some (formatValue env options item.rowX "x") ∧
    bagGet (buildBag env options name yaxis sd x) "@@y" =
      some (if mapGetD options.seriesOptions name options.globalSeriesType = "bubble" ∨
          mapGetD options.seriesOptions name options.globalSeriesType = "scatter" then
        formatValue env options item.rowY yaxis
       else env.formatNumber item.y) ∧
    (∀ e, item.yError = some e →
      bagGet (buildBag env options name yaxis sd x) "@@yError" =
        some (env.formatNumber e)) ∧
    (∀ z, item.size = some z →
      bagGet (buildBag env options name yaxis sd x) "@@size" =
        some (env.formatNumber z)) := by
  refine ⟨?_, ?_, ?_, ?_⟩
  · rw [buildBag_get env options name yaxis sd x item "@@x" hitem
      (by decide) (by decide) (by decide) (fun kv hkv => (hraw kv hkv).1)]
    rw [bagSet_get_other _ _ _ _ (by decide), bagSet_get_self]
  · rw [buildBag_get env options name yaxis sd x item "@@y" hitem
      (by decide) (by decide) (by decide) (fun kv hkv => (hraw kv hkv).2.1)]
    rw [bagSet_get_self]
  · intro e hE
    simp only [buildBag, hitem, hE]
    rw [bagGet_foldRaw _ _ _ (fun kv hkv => (hraw kv hkv).2.2.1)]
    split
    · rw [bagSet_get_other _ _ _ _ (by decide)]
      split
      · rw [bagSet_get_self]
      · rw [bagSet_get_other _ _ _ _ (by decide), bagSet_get_self]
    · split
      · rw [bagSet_get_self]
      · rw [bagSet_get_other _ _ _ _ (by decide), bagSet_get_self]
  · intro z hS
    simp only [buildBag, hitem, hS]
    rw [bagGet_foldRaw _ _ _ (fun kv hkv => (hraw kv hkv).2.2.2)]
    split
    · rw [bagSet_get_other _ _ _ _ (by decide), bagSet_get_self]
    · rw [bagSet_get_self]

/-- Witness for C8: a non-scatter (default-family) series; `@@y` comes
from the number formatter and `@@x` from the axis-value normalizer. -/
theorem claim8_witness :
    bagGet (buildBag sampleEnv pctOptions "A" "y" [samplePt 0 5] 0) "@@y" = some "N" ∧
    bagGet (buildBag sampleEnv pctOptions "A" "y" [samplePt 0 5] 0) "@@x" = some "V" := by
  have h := claim8_token_values sampleEnv pctOptions "A" "y" [samplePt 0 5] 0 (samplePt 0 5)
    (by decide) (by intro kv hkv; simp [samplePt] at hkv)
  constructor
  · rw [h.2.1]
    decide
  · rw [h.1]
    decide

/-- Counterexample for C8 as frozen: for a scatter chart the `@@y` token
is the axis-value-normalized raw `row.y` ("V" under the sample
environment), not the number-formatted y ("N"). -/
theorem claim8_counterexample :
    bagGet (buildBag sampleEnv scatterOptions "A" "y" [samplePt 0 5] 0) "@@y" =
      some "V" ∧
    sampleEnv.formatNumber ((samplePt 0 5).y) = "N" ∧
    some "V" ≠ some (sampleEnv.formatNumber ((samplePt 0 5).y)) := by
  refine ⟨by decide, rfl, by decide⟩

/-- C10: the `@@yPercent` token is the percent-formatted absolute value of
the point's `yPercent` (set whenever percent mode is on or the chart is a
pie), so a negative percentage share renders with its sign stripped: the
text pass gives the same output for a series list with every `yPercent`
negated. -/
theorem claim10_percent_token_abs (env : Env α) (options : Options) (name yaxis : String)
    (sd : List (Point α)) (x : α) (item : Point α) (sl : List (Series α))
    (hitem : srcGet sd x = some item)
    (hmode : options.percentValues = true ∨ options.globalSeriesType = "pie")
    (hraw : ∀ kv ∈ item.rawFields, kv.1 ≠ "@@yPercent") :
    bagGet (buildBag env options name yaxis sd x) "@@yPercent" =
      some (env.formatPercent (jsAbsOpt item.yPercent)) ∧
    (updateSeriesText env options (sl.map negYPercentSeries)).map (fun s => s.text) =
      (updateSeriesText env options sl).map (fun s => s.text) := by
  constructor
  · simp only [buildBag, hitem]
    rw [bagGet_foldRaw _ _ _ hraw, if_pos hmode, bagSet_get_self]
  · rw [updateSeriesText, updateSeriesText, List.map_map, List.map_map, List.map_map]
    apply List.map_congr_left
    intro s _
    show (updateSeriesTextS env options (negYPercentSeries s)).text =
      (updateSeriesTextS env options s).text
    rw [updateSeriesTextS_text, updateSeriesTextS_text]
    have hx : (if options.globalSeriesType = "pie" then (negYPercentSeries s).labels
        else (negYPercentSeries s).x) =
        (if options.globalSeriesType = "pie" then s.labels else s.x) := rfl
    rw [hx]
    apply List.map_congr_left
    intro x2 _
    rw [show (negYPercentSeries s).sourceData = s.sourceData.map negYPercentPoint from rfl,
      buildBag_negYPercent]
    rfl

/-- Witness for C10: a pie point whose `yPercent` is −50 produces the same
percent token as its absolute value, and negating `yPercent` across a
series list leaves the rendered text unchanged. -/
theorem claim10_witness :
    bagGet (buildBag sampleEnv pieOptions "A" "y"
        [{ samplePt 0 30 with yPercent := some (.num (-50)) }] 0) "@@yPercent" =
      some (sampleEnv.formatPercent (jsAbsOpt (some (.num (-50))))) ∧
    (updateSeriesText sampleEnv pieOptions
        ([sampleSer "A" [{ samplePt 0 30 with yPercent := some (.num (-50)) }]].map
          negYPercentSeries)).map (fun s => s.text) =
      (updateSeriesText sampleEnv pieOptions
        [sampleSer "A" [{ samplePt 0 30 with yPercent := some (.num (-50)) }]]).map
          (fun s => s.text) :=
  claim10_percent_token_abs sampleEnv pieOptions "A" "y"
    [{ samplePt 0 30 with yPercent := some (.num (-50)) }] 0
    { samplePt 0 30 with yPercent := some (.num (-50)) }
    [sampleSer "A" [{ samplePt 0 30 with yPercent := some (.num (-50)) }]]
    (by decide) (Or.inr rfl) (by intro kv hkv; simp [samplePt] at hkv)

/-- C2 (amended): for the pie family `updateData` performs no percent
normalization at all — `updatePieData` is just the text pass, and every
series' `sourceData` (hence every point's `yPercent`) comes back
unchanged, whatever `series.percentValues` is. The frozen claim (yPercent
freshly computed for every pie point even with `percentValues` false) is
false: a pie point arriving without `yPercent` still has none afterwards
(see the counterexample; the unconditional part of pie percent handling is
only that the *text* pass reads `yPercent`, cf. C10). -/
theorem claim2_pie_no_normalization (env : Env α) (options : Options)
    (sl : List (Series α)) (hpie : options.globalSeriesType = "pie") :
    updatePieData env options sl = updateSeriesText env options sl ∧
    (updateData env options sl).map (fun s => s.sourceData) =
      sl.map (fun s => s.sourceData) := by
  refine ⟨rfl, ?_⟩
  simp only [updateData, hpie, if_true, reduceIte]
  split
  · rfl
  · rw [updatePieData, updateSeriesText, mergeBack_map, List.map_map]
    apply List.map_congr_left
    intro s _
    by_cases hv : s.visible = true <;> simp [hv]

/-- Witness for C2 (amended): a concrete pie input; `sourceData` is
returned untouched. -/
theorem claim2_witness :
    (updateData sampleEnv pieOptions [sampleSer "A" [samplePt 0 30]]).map
        (fun s => s.sourceData) =
      [sampleSer "A" [samplePt 0 30]].map (fun s => s.sourceData) :=
  (claim2_pie_no_normalization sampleEnv pieOptions
    [sampleSer "A" [samplePt 0 30]] rfl).2

/-- Counterexample for C2 as frozen: a visible pie series with one point
(y = 30, `percentValues` false); after `updateData` the point's `yPercent`
is still absent, not the computed share `y / sum(|y|) * 100`. -/
theorem claim2_counterexample :
    (((updateData sampleEnv pieOptions
        [sampleSer "A" [samplePt 0 30]]).getD 0 default).sourceData.getD 0
          default).yPercent = none ∧
    ∀ q : ℚ, (none : Option JsNum) ≠ some (.num q) := by
  refine ⟨by decide, ?_⟩
  intro q h
  exact Option.noConfusion h

/-- C7 (amended): *provided every visible input series is well formed*
(each output array, and `labels`, has one entry per source point — the
shape the data-loading collaborator produces), every visible series has
parallel `x`/`y`/`errorY`/`text` arrays after `updateData`. As frozen the
claim is false: branches that leave some arrays untouched (pie, heatmap,
the non-unified default path) cannot repair an input whose arrays already
disagree (see the counterexample). -/
theorem claim7_parallel_arrays (env : Env α) (options : Options) (sl : List (Series α))
    (hwf : ∀ s ∈ sl, s.visible = true → wellFormed s) :
    ∀ s2 ∈ updateData env options sl, s2.visible = true → lensEq s2 := by
  intro s2 hmem hvis
  have hvf : ∀ s ∈ sl.filter (fun s => s.visible), wellFormed s := by
    intro s hs
    have := List.mem_filter.mp hs
    exact hwf s this.1 (by simpa using this.2)
  simp only [updateData] at hmem
  split at hmem
  · exact lensEq_of_wellFormed s2 (hwf s2 hmem hvis)
  · split at hmem
    · next hpie =>
      rcases mergeBack_mem_strong sl _ s2
          (vis_updateSeriesText env options _) hmem with h1 | ⟨_, h2⟩
      · exact lensEq_updatePieData env options _ hvf s2 h1
      · rw [hvis] at h2
        exact absurd h2 (by simp)
    · split at hmem
      · next hla =>
        have hnp : options.globalSeriesType ≠ "pie" := by
          rcases hla with h | h <;> simp [h]
        rcases mergeBack_mem_strong sl _ s2
            (vis_updateLineAreaData env options _) hmem with h1 | ⟨_, h2⟩
        · exact lensEq_updateLineAreaData env options _ hvf hnp s2 h1
        · rw [hvis] at h2
          exact absurd h2 (by simp)
      · split at hmem
        · rcases mergeBack_mem_strong sl _ s2 rfl hmem with h1 | ⟨_, h2⟩
          · have := List.mem_filter.mp h1
            exact lensEq_of_wellFormed s2 (hwf s2 this.1 (by simpa using this.2))
          · rw [hvis] at h2
            exact absurd h2 (by simp)
        · next hnpie _ _ =>
          rcases mergeBack_mem_strong sl _ s2
              (vis_updateDefaultData env options _) hmem with h1 | ⟨_, h2⟩
          · exact lensEq_updateDefaultData env options _ hvf hnpie s2 h1
          · rw [hvis] at h2
            exact absurd h2 (by simp)

/-- Witness for C7: a well-formed one-point column series; after
`updateData` the surviving series has parallel arrays. -/
theorem claim7_witness :
    lensEq ((updateData sampleEnv colOptions [sampleSer "A" [samplePt 0 1]]).getD 0
      default) := by
  refine claim7_parallel_arrays sampleEnv colOptions [sampleSer "A" [samplePt 0 1]]
    ?_ _ ?_ ?_
  · intro s hs _
    rw [List.mem_singleton] at hs
    subst hs
    exact ⟨by decide, by decide, by decide, by decide, by decide⟩
  · refine listGetD_mem default _ 0 ?_
    rw [updateData_length]
    decide
  · decide

/-- Counterexample for C7 as frozen: a visible column series whose input
`y` array is empty while it has one source point; the default branch (no
percent, no unification) leaves `y` untouched but rebuilds `text` with one
entry, so the output arrays are not parallel. -/
theorem claim7_counterexample :
    ((updateData sampleEnv colOptions
        [{ sampleSer "A" [samplePt 0 1] with y := [] }]).getD 0 default).visible = true ∧
    ¬ lensEq ((updateData sampleEnv colOptions
        [{ sampleSer "A" [samplePt 0 1] with y := [] }]).getD 0 default) := by
  constructor
  · decide
  · simp only [lensEq]
    decide

/-- C3: for the line/area family with stacking on, the n-th visible
series' y cell at every index i of the unified domain equals the
left-to-right JS sum of the pre-accumulation y cells (unified,
zero-filled, possibly percent-adjusted) of visible series 1..n at that
index: each series is layered on top of the previous one. -/
theorem claim3_stacking [Inhabited α] (env : Env α) (options : Options)
    (sl : List (Series α))
    (hla : options.globalSeriesType = "line" ∨ options.globalSeriesType = "area")
    (hst : options.stacking = true) (n i : Nat)
    (hn : n < (sl.filter (fun s => s.visible)).length)
    (hi : i < (getUnifiedXAxisValues (updatePercentValues options
      (sl.filter (fun s => s.visible))) options.sortX).length) :
    (((updateData env options sl).filter (fun s => s.visible)).getD n
        default).y.getD i .undef =
      jsSum1 (((updateUnifiedXAxisValues options (some (.num 0))
        (updatePercentValues options (sl.filter (fun s => s.visible)))).take
          (n + 1)).map (fun s => s.y.getD i .undef)) := by
  have hnotempty : (sl.filter (fun s => s.visible)).isEmpty = false := by
    cases he : (sl.filter (fun s => s.visible)).isEmpty
    · rfl
    · rw [List.isEmpty_iff] at he
      rw [he] at hn
      exact absurd hn (by simp)
  have hnp : options.globalSeriesType ≠ "pie" := by
    rcases hla with h | h <;> simp [h]
  have hdispatch : updateData env options sl =
      mergeBack sl (updateLineAreaData env options (sl.filter (fun s => s.visible))) := by
    simp only [updateData]
    rw [if_neg (by simp [hnotempty]), if_neg (by simp [hnp]), if_pos hla]
  have hfilter : (updateData env options sl).filter (fun s => s.visible) =
      updateLineAreaData env options (sl.filter (fun s => s.visible)) := by
    rw [hdispatch]
    exact mergeBack_filter sl _ (vis_updateLineAreaData env options _)
  rw [hfilter]
  have hla2 : updateLineAreaData env options (sl.filter (fun s => s.visible)) =
      updateSeriesText env options (stackSeries (updateUnifiedXAxisValues options
        (some (.num 0)) (updatePercentValues options
          (sl.filter (fun s => s.visible))))) := by
    simp [updateLineAreaData, hst]
  rw [hla2]
  have hlen_base : (updateUnifiedXAxisValues options (some (.num 0))
      (updatePercentValues options (sl.filter (fun s => s.visible)))).length =
      (sl.filter (fun s => s.visible)).length := by
    simp only [updateUnifiedXAxisValues]
    rw [List.length_map, updatePercentValues_length]
  have hstacklen : (stackSeries (updateUnifiedXAxisValues options (some (.num 0))
      (updatePercentValues options (sl.filter (fun s => s.visible))))).length =
      (sl.filter (fun s => s.visible)).length := by
    rw [stackSeries_eq, applyYs_length, hlen_base]
  have hT : ((updateSeriesText env options (stackSeries (updateUnifiedXAxisValues
      options (some (.num 0)) (updatePercentValues options
        (sl.filter (fun s => s.visible)))))).getD n default).y =
      ((stackSeries (updateUnifiedXAxisValues options (some (.num 0))
        (updatePercentValues options (sl.filter (fun s => s.visible))))).getD n
          default).y := by
    rw [updateSeriesText, listGetD_map (updateSeriesTextS env options) default default _
      n (by omega)]
    rfl
  rw [hT]
  have hys : ∀ s2 ∈ updateUnifiedXAxisValues options (some (.num 0))
      (updatePercentValues options (sl.filter (fun s => s.visible))),
      s2.y.length = (getUnifiedXAxisValues (updatePercentValues options
        (sl.filter (fun s => s.visible))) options.sortX).length := by
    intro s2 h2
    simp only [updateUnifiedXAxisValues] at h2
    obtain ⟨s, _, rfl⟩ := List.mem_map.mp h2
    simp [unifiedYCells]
  exact stackSeries_getD _ n i _ hys (by omega) hi

/-- Witness for C3: scenario C — stacked line series A with y = [1, 2] and
B with y = [3, 4]; the second visible series' y cell at index 1 equals the
running sum of the pre-accumulation cells (2 + 4 = 6). -/
theorem claim3_witness :
    (((updateData sampleEnv stackOptions
        [sampleSer "A" [samplePt 0 1, samplePt 1 2],
         sampleSer "B" [samplePt 0 3, samplePt 1 4]]).filter
          (fun s => s.visible)).getD 1 default).y.getD 1 .undef =
      jsSum1 (((updateUnifiedXAxisValues stackOptions (some (.num 0))
        (updatePercentValues stackOptions
          ([sampleSer "A" [samplePt 0 1, samplePt 1 2],
            sampleSer "B" [samplePt 0 3, samplePt 1 4]].filter
              (fun s => s.visible)))).take 2).map (fun s => s.y.getD 1 .undef)) :=
  claim3_stacking sampleEnv stackOptions
    [sampleSer "A" [samplePt 0 1, samplePt 1 2],
     sampleSer "B" [samplePt 0 3, samplePt 1 4]]
    (Or.inl rfl) rfl 1 1 (by decide) (by decide)

/-- C4: the whole transform is idempotent — running `updateData` twice on
the same input and configuration gives exactly the same series list
(hence identical x, y, errorY, text, hover and labels arrays on every
series), for every environment, configuration and series list. -/
theorem claim4_idempotent (env : Env α) (options : Options) (sl : List (Series α)) :
    updateData env options (updateData env options sl) = updateData env options sl := by
  by_cases he : (sl.filter (fun s => s.visible)).isEmpty = true
  · have h1 : updateData env options sl = sl := by
      simp [updateData, he]
    rw [h1, h1]
  · have hef : (sl.filter (fun s => s.visible)).isEmpty = false := by
      cases h2 : (sl.filter (fun s => s.visible)).isEmpty
      · rfl
      · exact absurd h2 he
    by_cases hpie : options.globalSeriesType = "pie"
    · refine updateData_idem_aux env options sl (updatePieData env options)
        (vis_updateSeriesText env options) (updateSeriesText_idem env options)
        (fun l2 h => ?_) hef
      simp only [updateData]
      rw [if_neg (by simp [h]), if_pos hpie]
    · by_cases hla : options.globalSeriesType = "line" ∨ options.globalSeriesType = "area"
      · refine updateData_idem_aux env options sl (updateLineAreaData env options)
          (vis_updateLineAreaData env options) (updateLineAreaData_idem env options)
          (fun l2 h => ?_) hef
        simp only [updateData]
        rw [if_neg (by simp [h]), if_neg hpie, if_pos hla]
      · by_cases hhm : options.globalSeriesType = "heatmap"
        · refine updateData_idem_aux env options sl (fun l2 => l2)
            (fun l2 => rfl) (fun l2 => rfl) (fun l2 h => ?_) hef
          simp only [updateData]
          rw [if_neg (by simp [h]), if_neg hpie, if_neg hla, if_pos hhm]
        · refine updateData_idem_aux env options sl (updateDefaultData env options)
            (vis_updateDefaultData env options) (updateDefaultData_idem env options)
            (fun l2 h => ?_) hef
          simp only [updateData]
          rw [if_neg (by simp [h]), if_neg hpie, if_neg hla, if_neg hhm]

end UpdateData
